import Mathlib
/-!
Verification development for the `llm-council` backend.

The Python sources (`backend/llm_client.py`, `backend/council_config.py`,
`backend/council.py`) are shallowly embedded below.  Strings are modelled as
`List Char` in the parsing core (with `String` wrappers where the source deals
in `str` values), machine text processing (`str.split`, `re.findall`,
`re.search`, `str.strip`) is modelled by executable Lean functions with the
same semantics on the inputs used, numeric averaging is modelled over `ℚ`,
network calls are modelled by oracle parameters, and Python exceptions are
modelled with `Except`.
-/
deriving instance DecidableEq for Except
/-- ASCII whitespace characters matched by Python's regex `\s` (the embedding
restricts to ASCII; the counterexamples and tests below only use ASCII). -/
def isPyWs (c : Char) : Bool :=
  c = ' ' || c = '\t' || c = '\n' || c = '\r' || c = '\x0b' || c = '\x0c'
/-- ASCII decimal digit, as matched by the regex `\d` on ASCII input. -/
def isAsciiDigit (c : Char) : Bool := '0' ≤ c && c ≤ '9'
/-- Uppercase ASCII letter, as matched by the regex character class `[A-Z]`. -/
def isUpperAZ (c : Char) : Bool := 'A' ≤ c && c ≤ 'Z'
/-- Python `str.strip()` on a character list: drop whitespace on both ends. -/
def pyStripL (s : List Char) : List Char :=
  ((s.dropWhile isPyWs).reverse.dropWhile isPyWs).reverse
/-- Python `str.strip()` on a `String`. -/
def pyStrip (s : String) : String :=
  String.mk (pyStripL s.toList)
/-- Python `str.strip(chars)`: drop any of the given characters on both ends. -/
def pyStripCharsL (chars : List Char) (s : List Char) : List Char :=
  ((s.dropWhile (chars.contains ·)).reverse.dropWhile (chars.contains ·)).reverse
/-- Python substring test `pat in s` (for a fixed pattern list). -/
def occursIn (pat : List Char) : List Char → Bool
  | [] => pat.isPrefixOf []
  | c :: cs => pat.isPrefixOf (c :: cs) || occursIn pat cs
/-- Python `str.split(sep)` for a non-empty separator, with explicit fuel
(structural recursion so that the kernel can evaluate it; `pySplitOn` below
supplies adequate fuel, and each step consumes at least one character, so the
out-of-fuel branch is unreachable there). -/
def pySplitOnF (sep : List Char) : Nat → List Char → List (List Char)
  | _, [] => [[]]
  | 0, s => [s]
  | fuel + 1, c :: cs =>
    if !sep.isEmpty && sep.isPrefixOf (c :: cs) then
      [] :: pySplitOnF sep fuel ((c :: cs).drop sep.length)
    else
      match pySplitOnF sep fuel cs with
      | [] => [[c]]
      | p :: ps => (c :: p) :: ps
/-- Python `str.split(sep)` for a non-empty separator (an empty separator is
rejected by Python; here it would simply never match). -/
def pySplitOn (sep : List Char) (s : List Char) : List (List Char) :=
  pySplitOnF sep s.length s
/-- The text after the first occurrence of `pat` (empty if no occurrence). -/
def afterFirst (pat : List Char) : List Char → List Char
  | [] => []
  | c :: cs =>
    if pat.isPrefixOf (c :: cs) then (c :: cs).drop pat.length
    else afterFirst pat cs
/-- The text before the first occurrence of `pat` (all of it if none). -/
def upToFirst (pat : List Char) : List Char → List Char
  | [] => []
  | c :: cs =>
    if pat.isPrefixOf (c :: cs) then []
    else c :: upToFirst pat cs
/-- Match a literal character list at the start of the input, returning the
rest on success. -/
def stripLit : List Char → List Char → Option (List Char)
  | [], s => some s
  | _ :: _, [] => none
  | p :: ps, c :: cs => if c = p then stripLit ps cs else none
/-- The literal `"Response "` that both ranking regexes contain. -/
def respLit : List Char := ['R', 'e', 's', 'p', 'o', 'n', 's', 'e', ' ']
/-- The literal marker `"FINAL RANKING:"`. -/
def markerL : List Char :=
  ['F', 'I', 'N', 'A', 'L', ' ', 'R', 'A', 'N', 'K', 'I', 'N', 'G', ':']
/-- Anchored match of the regex `Response [A-Z]`: on success returns the
matched text and the remaining input. -/
def matchLooseAt (s : List Char) : Option (List Char × List Char) :=
  match stripLit respLit s with
  | some (c :: rest) => if isUpperAZ c then some (respLit ++ [c], rest) else none
  | _ => none
/-- Anchored match of the regex `\d+\.\s*Response [A-Z]` (greedy, which is
deterministic for this pattern): on success returns the matched text and the
remaining input. -/
def matchStrictAt (s : List Char) : Option (List Char × List Char) :=
  let ds := s.takeWhile isAsciiDigit
  let r1 := s.dropWhile isAsciiDigit
  if ds.isEmpty then none
  else
    match r1 with
    | '.' :: r2 =>
      let ws := r2.takeWhile isPyWs
      let r3 := r2.dropWhile isPyWs
      (matchLooseAt r3).map (fun p => (ds ++ '.' :: (ws ++ p.1), p.2))
    | _ => none
/-- Model of `re.findall` for an anchored matcher with explicit fuel: scan left to
right, emitting non-overlapping matches; on failure advance one character.
The guard on the recursive call keeps the scan progressing (every matcher used
here consumes at least one character, so the guard always holds), and
`findAll` below supplies adequate fuel. -/
def findAllF (m : List Char → Option (List Char × List Char)) :
    Nat → List Char → List (List Char)
  | _, [] => []
  | 0, _ :: _ => []
  | fuel + 1, c :: cs =>
    match m (c :: cs) with
    | some (r, t) =>
      r :: (if t.length ≤ cs.length then findAllF m fuel t
            else findAllF m fuel cs)
    | none => findAllF m fuel cs
/-- Model of `re.findall` for an anchored matcher. -/
def findAll (m : List Char → Option (List Char × List Char))
    (s : List Char) : List (List Char) :=
  findAllF m s.length s
/-- Model of `re.search` for an anchored matcher: the first match scanning left to
right, if any. -/
def searchFirst (m : List Char → Option (List Char × List Char)) :
    List Char → Option (List Char)
  | [] => none
  | c :: cs =>
    match m (c :: cs) with
    | some (r, _) => some r
    | none => searchFirst m cs
/-- The function `parse_ranking_from_text` (backend/council.py, lines 212-243) on character
lists.  Mirrors the source control flow: check `"FINAL RANKING:" in text`,
split on the marker, take `parts[1]` (guarded by `len(parts) >= 2`), try the
numbered pattern first and extract the `Response X` part of each numbered
match via `re.search`, else all loose matches of the section; if the marker
check fails (or the unreachable length guard fails) fall through to a loose
scan of the whole text. -/
def parse_ranking_from_textL (ranking_text : List Char) : List (List Char) :=
  let viaMarker : Option (List (List Char)) :=
    if occursIn markerL ranking_text then
      let parts := pySplitOn markerL ranking_text
      if 2 ≤ parts.length then
        let ranking_section := (parts.get? 1).getD []
        let numbered := findAll matchStrictAt ranking_section
        if numbered.isEmpty then
          some (findAll matchLooseAt ranking_section)
        else
          some (numbered.map (fun m => (searchFirst matchLooseAt m).getD []))
      else none
    else none
  match viaMarker with
  | some r => r
  | none => findAll matchLooseAt ranking_text
/-- The function `parse_ranking_from_text` on `String`, as `council.py` exposes it. -/
def parse_ranking_from_text (ranking_text : String) : List String :=
  (parse_ranking_from_textL ranking_text.toList).map String.mk
/-- The `"Response <Letter>"` part of a strict match, read off as its trailing
ten characters (`"Response "` plus the letter), following the spec's phrase
"returned as their Response <Letter> parts". -/
def respPartOf (m : List Char) : List Char := m.drop (m.length - 10)
/-- Anchored match for the claim's reading of the strict pattern: digit(s),
period, *optional single space*, `"Response"`, space, uppercase letter. -/
def matchStrictClaimAt (s : List Char) : Option (List Char × List Char) :=
  let ds := s.takeWhile isAsciiDigit
  let r1 := s.dropWhile isAsciiDigit
  if ds.isEmpty then none
  else
    match r1 with
    | '.' :: r2 =>
      let sp := match r2 with | ' ' :: _ => [' '] | _ => []
      let r3 := match r2 with | ' ' :: r3 => r3 | _ => r2
      (matchLooseAt r3).map (fun p => (ds ++ '.' :: (sp ++ p.1), p.2))
    | _ => none
/-- Claim C3's description of the ranking parser, formalised literally: with
the marker present, only the text after the *first* occurrence is considered,
the strict tier allows an *optional single space* after the period, strict
matches are returned as their `"Response <Letter>"` parts, otherwise the loose
occurrences after the marker, and with no marker the loose occurrences of the
whole text. -/
def parse_ranking_claimL (t : List Char) : List (List Char) :=
  if occursIn markerL t then
    let tail := afterFirst markerL t
    let strict := findAll matchStrictClaimAt tail
    if strict.isEmpty then findAll matchLooseAt tail
    else strict.map respPartOf
  else findAll matchLooseAt t
/-- The post-marker region the code actually scans: the text strictly between
the first occurrence of the marker and the next occurrence (to the end of the
text when the marker occurs only once). -/
def markerSegment (t : List Char) : List Char :=
  upToFirst markerL (afterFirst markerL t)
/-- The amended description of the ranking parser: as claim C3, except that
the considered region stops at the next occurrence of the marker and that the
strict tier allows any (possibly empty) run of whitespace after the period. -/
def parse_ranking_amendedL (t : List Char) : List (List Char) :=
  if occursIn markerL t then
    let seg := markerSegment t
    let strict := findAll matchStrictAt seg
    if strict.isEmpty then findAll matchLooseAt seg
    else strict.map respPartOf
  else findAll matchLooseAt t
/-! ## `backend/llm_client.py` -/
/-- An OpenAI-style chat message (`{"role": ..., "content": ...}`). -/
structure ChatMessage where
  role : String
  content : String
deriving DecidableEq, Repr
/-- A provider response dict: `{"content": ..., "reasoning_details": ...}`.
Both values can be `None` in the source (`message.get(...)`), hence `Option`. -/
structure ModelResponse where
  content : Option String
  reasoning_details : Option String
deriving DecidableEq, Repr
/-- Outcome of invoking one provider adapter: a response, a raised
`ConfigError`, a raised `httpx.HTTPStatusError` with a status code, or any
other raised exception. -/
inductive AdapterOutcome where
  | ok (r : ModelResponse)
  | configError (msg : String)
  | httpStatus (status : Nat)
  | exn
deriving DecidableEq, Repr
/-- Oracle standing for the network: what the adapter for a given provider
does for a given model name and message list. -/
def AdapterOracle : Type := String → String → List ChatMessage → AdapterOutcome
/-- The diagnostic `query_model` prints for a call (modelled alongside the
return value, since `print` is a side channel). -/
inductive Diagnostic where
  | ok
  | unknownProvider
  | configError
  | unauthorized
  | httpError (status : Nat)
  | genericError
deriving DecidableEq, Repr
/-- Python `str.lower()` on ASCII letters (all provider keys are ASCII; the
embedding restricts Unicode lowering to the ASCII range). -/
def pyLowerChar (c : Char) : Char :=
  if 'A' ≤ c && c ≤ 'Z' then Char.ofNat (c.toNat + 32) else c
/-- Python `str.lower()` on a `String` (ASCII model). -/
def pyLower (s : String) : String := String.mk (s.toList.map pyLowerChar)
/-- The keys of the `PROVIDERS` registry (llm_client.py, lines 301-309). -/
def PROVIDERS : List String :=
  ["openrouter", "openai", "gemini", "anthropic", "glm", "qwen", "grok"]
/-- The function `parse_model_spec` (llm_client.py, lines 25-43): strip, split on the first
colon when present (provider lowercased and stripped, empty provider falling
back to `"openrouter"`), else default the whole spec to an OpenRouter model. -/
def parse_model_spec (spec : String) : String × String :=
  let s := pyStrip spec
  if occursIn [':'] s.toList then
    let pre := s.toList.takeWhile (· ≠ ':')
    let post := (s.toList.dropWhile (· ≠ ':')).drop 1
    let provider0 := pyLower (pyStrip (String.mk pre))
    let provider := if provider0 = "" then "openrouter" else provider0
    (provider, pyStrip (String.mk post))
  else ("openrouter", s)
/-- The function `query_model` (llm_client.py, lines 312-356): resolve the provider; an
unknown provider returns `None` without calling any adapter; a `ConfigError`,
an HTTP status error, or any other adapter exception is caught and yields
`None`; a successful adapter call is returned as-is. -/
def query_model (oracle : AdapterOracle) (model_spec : String)
    (messages : List ChatMessage) : Option ModelResponse :=
  let pm := parse_model_spec model_spec
  if PROVIDERS.contains pm.1 then
    match oracle pm.1 pm.2 messages with
    | .ok r => some r
    | .configError _ => none
    | .httpStatus _ => none
    | .exn => none
  else none
/-- The diagnostic printed by `query_model` on the same call (llm_client.py:
unknown provider, config error, 401 special case, other HTTP error, generic). -/
def query_model_diag (oracle : AdapterOracle) (model_spec : String)
    (messages : List ChatMessage) : Diagnostic :=
  let pm := parse_model_spec model_spec
  if PROVIDERS.contains pm.1 then
    match oracle pm.1 pm.2 messages with
    | .ok _ => .ok
    | .configError _ => .configError
    | .httpStatus status =>
      if status = 401 then .unauthorized else .httpError status
    | .exn => .genericError
  else .unknownProvider
/-- Keys of a Python dict built by inserting a list of keys in order: first
occurrence position is kept, later duplicates do not add entries. -/
def pyDictKeys : List String → List String
  | [] => []
  | m :: ms => m :: (pyDictKeys ms).filter (· ≠ m)
/-- The function `query_models_parallel` (llm_client.py, lines 359-366): query every model
with the same messages and collect `{model: response}`.  The dict is modelled
as an association list; with the deterministic oracle a duplicated model spec
maps to the same response, so keeping the first occurrence of each key agrees
with Python's insert-then-overwrite semantics. -/
def query_models_parallel (oracle : AdapterOracle) (models : List String)
    (messages : List ChatMessage) : List (String × Option ModelResponse) :=
  (pyDictKeys models).map (fun m => (m, query_model oracle m messages))
/-! ## `backend/config.py` and `backend/council_config.py` -/
/-- Snapshot of the module-level settings in `backend/config.py` that
`council_config.py` and `council.py` read.  Env-driven string settings are
`Option String` (`None` when unset); Python truthiness (`None` and `""` are
falsy) is modelled by `pyTruthy`. -/
structure ConfigSnapshot where
  COUNCIL_MODELS : List String
  CHAIRMAN_MODEL : Option String
  TITLE_MODEL : Option String
  OPENROUTER_API_KEY : Option String
  OPENAI_API_KEY : Option String
  OPENAI_API_BASE : Option String
  GEMINI_API_KEY : Option String
  GEMINI_API_BASE : Option String
  ANTHROPIC_API_KEY : Option String
  ANTHROPIC_API_BASE : Option String
  ANTHROPIC_API_VERSION : Option String
  GLM_API_KEY : Option String
  GLM_API_BASE : Option String
  QWEN_API_KEY : Option String
  QWEN_API_BASE : Option String
  GROK_API_KEY : Option String
  GROK_API_BASE : Option String
deriving Repr
/-- Python truthiness of an optional string setting. -/
def pyTruthy (o : Option String) : Bool := o.getD "" ≠ ""
/-- One entry of the `failures` list built by `load_council_config`. -/
structure ConfigFailure where
  model_spec : String
  provider : String
  error_type : String
  missing : List String
deriving DecidableEq, Repr
/-- The `CouncilEffectiveConfig` dataclass (council_config.py, lines 18-23). -/
structure CouncilEffectiveConfig where
  council_models : List String
  chairman_model : Option String
  title_model : Option String
  failures : List ConfigFailure
deriving DecidableEq, Repr
/-- The function `_missing_env_for_provider` (council_config.py, lines 26-83). -/
def missing_env_for_provider (cfg : ConfigSnapshot) (provider : String) :
    List String :=
  if provider = "openrouter" then
    (if pyTruthy cfg.OPENROUTER_API_KEY then [] else ["OPENROUTER_API_KEY"])
  else if provider = "openai" then
    (if pyTruthy cfg.OPENAI_API_KEY then [] else ["OPENAI_API_KEY"]) ++
    (if pyTruthy cfg.OPENAI_API_BASE then [] else ["OPENAI_API_BASE"])
  else if provider = "gemini" then
    (if pyTruthy cfg.GEMINI_API_KEY then [] else ["GEMINI_API_KEY"]) ++
    (if pyTruthy cfg.GEMINI_API_BASE then [] else ["GEMINI_API_BASE"])
  else if provider = "anthropic" then
    (if pyTruthy cfg.ANTHROPIC_API_KEY then [] else ["ANTHROPIC_API_KEY"]) ++
    (if pyTruthy cfg.ANTHROPIC_API_BASE then [] else ["ANTHROPIC_API_BASE"]) ++
    (if pyTruthy cfg.ANTHROPIC_API_VERSION then [] else ["ANTHROPIC_API_VERSION"])
  else if provider = "glm" then
    (if pyTruthy cfg.GLM_API_KEY then [] else ["GLM_API_KEY"]) ++
    (if pyTruthy cfg.GLM_API_BASE then [] else ["GLM_API_BASE"])
  else if provider = "qwen" then
    (if pyTruthy cfg.QWEN_API_KEY then [] else ["QWEN_API_KEY"]) ++
    (if pyTruthy cfg.QWEN_API_BASE then [] else ["QWEN_API_BASE"])
  else if provider = "grok" then
    (if pyTruthy cfg.GROK_API_KEY then [] else ["GROK_API_KEY"]) ++
    (if pyTruthy cfg.GROK_API_BASE then [] else ["GROK_API_BASE"])
  else ["UNSUPPORTED_PROVIDER:" ++ provider]
/-- The function `_normalize_model_spec` (council_config.py, lines 86-94): trim only. -/
def normalize_model_spec (spec : String) : String := pyStrip spec
/-- The council-model filtering loop of `load_council_config` (lines 99-117):
returns the accumulated `failures` and `effective_models` in loop order. -/
def filterCouncilModels (cfg : ConfigSnapshot) :
    List String → List ConfigFailure × List String
  | [] => ([], [])
  | spec :: rest =>
    let ns := normalize_model_spec spec
    let provider := (parse_model_spec ns).1
    let missing := missing_env_for_provider cfg provider
    let tailRes := filterCouncilModels cfg rest
    if missing.isEmpty then (tailRes.1, ns :: tailRes.2)
    else (⟨ns, provider, "config_error", missing⟩ :: tailRes.1, tailRes.2)
/-- The chairman-resolution step of `load_council_config` (council_config.py,
lines 119-138): explicit override when valid, `invalid_chairman` failure plus
first-model fallback when set but absent, first model otherwise, absent when
there are no effective models.  Python truthiness of intermediate strings is
preserved (`normalized_chairman` may be `some ""` after stripping a blank
override, and `""` is falsy in the branch conditions). -/
def chairman_resolution (cfg : ConfigSnapshot) (effective_models : List String)
    (failures : List ConfigFailure) : Option String × List ConfigFailure :=
  let normalized_chairman : Option String :=
    if pyTruthy cfg.CHAIRMAN_MODEL then
      some (normalize_model_spec (cfg.CHAIRMAN_MODEL.getD ""))
    else none
  if effective_models.isEmpty then (none, failures)
  else if pyTruthy normalized_chairman &&
      effective_models.contains (normalized_chairman.getD "") then
    (normalized_chairman, failures)
  else if pyTruthy normalized_chairman &&
      !(effective_models.contains (normalized_chairman.getD "")) then
    (effective_models.get? 0, failures ++
      [⟨cfg.CHAIRMAN_MODEL.getD "",
        (parse_model_spec (normalized_chairman.getD "")).1,
        "invalid_chairman", []⟩])
  else (effective_models.get? 0, failures)
/-- The title-model resolution step of `load_council_config`
(council_config.py, lines 140-157): a truthy configured title model is used
when its provider is configured, recording a `config_error` failure and
falling back to the chairman otherwise; an unset title model falls back to
the chairman. -/
def title_resolution (cfg : ConfigSnapshot) (chairman_model : Option String)
    (failures : List ConfigFailure) : Option String × List ConfigFailure :=
  let title0 : Option String :=
    if pyTruthy cfg.TITLE_MODEL then
      some (normalize_model_spec (cfg.TITLE_MODEL.getD ""))
    else none
  if pyTruthy title0 then
    let tprovider := (parse_model_spec (title0.getD "")).1
    let tmissing := missing_env_for_provider cfg tprovider
    if tmissing.isEmpty then (title0, failures)
    else (chairman_model, failures ++
      [⟨cfg.TITLE_MODEL.getD "", tprovider, "config_error", tmissing⟩])
  else (chairman_model, failures)
/-- The function `load_council_config` (council_config.py, lines 97-164): filter the
council models by provider configuration, then resolve the chairman, then the
title model. -/
def load_council_config (cfg : ConfigSnapshot) : CouncilEffectiveConfig :=
  let fm := filterCouncilModels cfg cfg.COUNCIL_MODELS
  let cres := chairman_resolution cfg fm.2 fm.1
  let tres := title_resolution cfg cres.1 cres.2
  ⟨fm.2, cres.1, tres.1, tres.2⟩
/-! ## `backend/council.py` -/
/-- A Stage 1 entry `{"model": ..., "response": response.get('content', '')}`.
The `'content'` key is always present in adapter responses, so the `get`
returns the stored value, which may be Python `None` (hence `Option`). -/
structure Stage1Result where
  model : String
  response : Option String
deriving DecidableEq, Repr
/-- A Stage 2 entry `{"model": ..., "ranking": full_text, "parsed_ranking":
parsed}`.  `ranking` is a proper string: a `None` content raises before the
entry is built. -/
structure Stage2Result where
  model : String
  ranking : String
  parsed_ranking : List String
deriving DecidableEq, Repr
/-- A Stage 3 entry `{"model": ..., "response": ...}`. -/
structure Stage3Result where
  model : String
  response : Option String
deriving DecidableEq, Repr
/-- A runtime-failure record appended by `run_full_council`. -/
structure RuntimeFailure where
  model_spec : String
  stage : String
  error_type : String
deriving DecidableEq, Repr
/-- One aggregate entry `{"model", "average_rank", "rankings_count"}`; Python
float arithmetic is modelled over `ℚ`. -/
structure AggregateEntry where
  model : String
  average_rank : ℚ
  rankings_count : Nat
deriving DecidableEq, Repr
/-- The metadata dict of `run_full_council`; the error branches omit the
`label_to_model` and `aggregate_rankings` keys (modelled by `none`). -/
structure CouncilMetadata where
  label_to_model : Option (List (String × String))
  aggregate_rankings : Option (List AggregateEntry)
  failures : List ConfigFailure
  runtime_failures : List RuntimeFailure
deriving DecidableEq, Repr
/-- Instrumentation of the pipeline: the model specs passed to
`query_models_parallel` in Stages 1 and 2 and to `query_model` in Stage 3, in
order.  It records exactly the dispatch argument of each network call. -/
structure RunLog where
  stage1_dispatch : List String
  stage2_dispatch : List String
  stage3_dispatch : List String
deriving DecidableEq, Repr
/-- Python `str(x)` for an optional string (f-string interpolation renders
`None` as `"None"`). -/
def pyStr : Option String → String
  | some s => s
  | none => "None"
/-- Python `sep.join(xs)`. -/
def joinSep (sep : String) : List String → String
  | [] => ""
  | [x] => x
  | x :: y :: xs => x ++ sep ++ joinSep sep (y :: xs)
/-- The function `stage1_collect_responses` (council.py, lines 10-40): dispatch the query
to all models, keep entries whose response is non-null, in dict order. -/
def stage1_collect_responses (oracle : AdapterOracle) (user_query : String)
    (models_to_use : List String) : List Stage1Result :=
  let messages : List ChatMessage := [⟨"user", user_query⟩]
  (query_models_parallel oracle models_to_use messages).filterMap
    (fun p => p.2.map (fun r => (⟨p.1, r.content⟩ : Stage1Result)))
/-- The labels `[chr(65 + i) for i in range(len(stage1_results))]`
(council.py, line 58). -/
def stage2_labels (n : Nat) : List Char :=
  (List.range n).map (fun i => Char.ofNat (65 + i))
/-- The ranking prompt (council.py, lines 72-101). -/
def ranking_prompt_text (user_query responses_text : String) : String :=
  "You are evaluating different responses to the following question:\n\nQuestion: "
  ++ user_query
  ++ "\n\nHere are the responses from different models (anonymized):\n\n"
  ++ responses_text
  ++ "\n\nYour task:\n1. First, evaluate each response individually. For each response, explain what it does well and what it does poorly.\n2. Then, at the very end of your response, provide a final ranking.\n\nIMPORTANT: Your final ranking MUST be formatted EXACTLY as follows:\n- Start with the line \"FINAL RANKING:\" (all caps, with colon)\n- Then list the responses from best to worst as a numbered list\n- Each line should be: number, period, space, then ONLY the response label (e.g., \"1. Response A\")\n- Do not add any other text or explanations in the ranking section\n\nExample of the correct format for your ENTIRE response:\n\nResponse A provides good detail on X but misses Y...\nResponse B is accurate but lacks depth on Z...\nResponse C offers the most comprehensive answer...\n\nFINAL RANKING:\n1. Response C\n2. Response A\n3. Response B\n\nNow provide your evaluation and ranking:"
/-- The per-response Stage 2 processing loop (council.py, lines 112-121):
skip null responses; a `None` content raises a `TypeError` inside
`parse_ranking_from_text` (modelled as `Except.error`); otherwise build the
`Stage2Result`. -/
def processStage2 : List (String × Option ModelResponse) →
    Except Unit (List Stage2Result)
  | [] => .ok []
  | (_, none) :: rest => processStage2 rest
  | (m, some r) :: rest =>
    match r.content with
    | none => .error ()
    | some t =>
      (processStage2 rest).map
        (fun l => (⟨m, t, parse_ranking_from_text t⟩ : Stage2Result) :: l)
/-- The function `stage2_collect_rankings` (council.py, lines 43-123): build labels, the
label-to-model mapping and the ranking prompt, dispatch only to the Stage 1
survivors, and process the responses.  Returns `(label_to_model,
ranking_models, results)`; `ranking_models` is precisely the list passed to
`query_models_parallel` (line 106/109). -/
def stage2_collect_rankings (oracle : AdapterOracle) (user_query : String)
    (stage1_results : List Stage1Result) :
    List (String × String) × List String × Except Unit (List Stage2Result) :=
  let labels := stage2_labels stage1_results.length
  let label_to_model := (labels.zip stage1_results).map
    (fun p => ("Response " ++ String.mk [p.1], p.2.model))
  let responses_text := joinSep "\n\n" ((labels.zip stage1_results).map
    (fun p => "Response " ++ String.mk [p.1] ++ ":\n" ++ pyStr p.2.response))
  let ranking_prompt := ranking_prompt_text user_query responses_text
  let ranking_models := stage1_results.map (·.model)
  let responses := query_models_parallel oracle ranking_models
    [⟨"user", ranking_prompt⟩]
  (label_to_model, ranking_models, processStage2 responses)
/-- The chairman prompt (council.py, lines 154-189). -/
def chairman_prompt_text (user_query stage1_text stage2_text : String) : String :=
  "You are the Chairman of an LLM Council. Multiple AI models have provided responses to a user's question, and then ranked each other's responses.\n\nThe original question text may include one or more project context sections that look like:\n- [PROJECT ROOT] <project:some-id>\n- [PROJECT PATH] /some/filesystem/path\n- [PROJECT TREE]\n  (directory listing)\n- [PROJECT CODEBASE]\n  (file previews)\n\nTreat these PROJECT ROOT/TREE/CODEBASE sections as the ONLY reliable evidence about any codebase or filesystem path. You MUST:\n- Base any statements about specific projects, repositories, or code only on these sections.\n- Refer to projects by their logical handle (for example \"project:some-id\") rather than claiming direct access to raw filesystem paths.\n- NOT claim that you have \"traversed\", \"loaded\", or \"inspected\" a repository or path unless it appears in a [PROJECT ROOT]/[PROJECT PATH] block with corresponding TREE/CODEBASE content.\n- Treat any lines like \"[Error collecting project tree: ...]\" or \"[Error collecting project codebase: ...]\" as meaning that code for that project is NOT available.\n\nWhen many Stage 1 models explicitly say that they cannot access a path or repository (for example messages containing phrases like \"cannot access\", \"无法访问\", or similar), you must treat this as strong evidence that the council as a whole lacks filesystem access. In such cases:\n- Do NOT invent details about unseen code or repositories.\n- Clearly state that the council does not have direct access to the requested codebase and that any high-level comments are necessarily generic or speculative.\n\nOriginal Question (including any project context): "
  ++ user_query
  ++ "\n\nSTAGE 1 - Individual Responses:\n"
  ++ stage1_text
  ++ "\n\nSTAGE 2 - Peer Rankings:\n"
  ++ stage2_text
  ++ "\n\nYour task as Chairman is to synthesize all of this information into a single, comprehensive, accurate answer to the user's original question. Consider:\n- The individual responses and their insights\n- The peer rankings and what they reveal about response quality\n- Any patterns of agreement or disagreement\n\nIf the council lacks reliable project context for a requested codebase, your final answer MUST clearly explain this limitation and avoid pretending to have inspected that code.\n\nProvide a clear, well-reasoned final answer that represents the council's collective wisdom:"
/-- The function `stage3_synthesize_final` (council.py, lines 126-209): build the chairman
prompt, resolve `chairman_model or CHAIRMAN_MODEL` (Python truthiness), query
once, and fall back to the fixed error response if the query returns null.
A `None` effective chairman raises inside `parse_model_spec` (modelled as
`Except.error`).  Also returns the dispatched chairman spec for the log. -/
def stage3_synthesize_final (oracle : AdapterOracle) (user_query : String)
    (stage1_results : List Stage1Result) (stage2_results : List Stage2Result)
    (chairman_model global_chairman : Option String) :
    Except Unit (Stage3Result × String) :=
  let stage1_text := joinSep "\n\n" (stage1_results.map
    (fun r => "Model: " ++ r.model ++ "\nResponse: " ++ pyStr r.response))
  let stage2_text := joinSep "\n\n" (stage2_results.map
    (fun r => "Model: " ++ r.model ++ "\nRanking: " ++ r.ranking))
  let prompt := chairman_prompt_text user_query stage1_text stage2_text
  let effective_chairman :=
    if pyTruthy chairman_model then chairman_model else global_chairman
  match effective_chairman with
  | none => .error ()
  | some eff =>
    match query_model oracle eff [⟨"user", prompt⟩] with
    | none => .ok (⟨eff, some "Error: Unable to generate final synthesis."⟩, eff)
    | some r => .ok (⟨eff, r.content⟩, eff)
/-- Python `round(x, 2)` modelled over `ℚ`: round half to even at two decimal
places.  (Python rounds the nearest binary float; on all values appearing in
this development the two agree, as the values are far from `.xx5`
boundaries.) -/
def pyRound2 (q : ℚ) : ℚ :=
  let s := q * 100
  let f : ℤ := Int.floor s
  let frac : ℚ := s - f
  let n : ℤ :=
    if frac < 1/2 then f
    else if 1/2 < frac then f + 1
    else if f % 2 = 0 then f else f + 1
  (n : ℚ) / 100
/-- Dict update `model_positions[model_name].append(position)` on the insertion-ordered
dict (modelled as an association list): append to the existing entry, or
create a new entry at the end (defaultdict semantics). -/
def addPosition : List (String × List Nat) → String → Nat →
    List (String × List Nat)
  | [], m, p => [(m, [p])]
  | (k, ps) :: rest, m, p =>
    if k = m then (k, ps ++ [p]) :: rest
    else (k, ps) :: addPosition rest m p
/-- The inner loop of `calculate_aggregate_rankings` (council.py, lines
271-274): walk one parsed ranking with 1-based positions, recording positions
for labels that resolve in `label_to_model` and skipping the rest. -/
def recordRanking (label_to_model : List (String × String))
    (st : List (String × List Nat)) (parsed : List String) :
    List (String × List Nat) :=
  (parsed.enumFrom 1).foldl
    (fun st p =>
      match label_to_model.lookup p.2 with
      | some model_name => addPosition st model_name p.1
      | none => st)
    st
/-- The `model_positions` accumulator of `calculate_aggregate_rankings`
(council.py, lines 263-274), re-parsing each entry's `ranking` text. -/
def model_positions_of (label_to_model : List (String × String))
    (stage2_results : List Stage2Result) : List (String × List Nat) :=
  stage2_results.foldl
    (fun st r => recordRanking label_to_model st
      (parse_ranking_from_text r.ranking))
    []
/-- The function `calculate_aggregate_rankings` (council.py, lines 246-290): average each
model's positions, store the average rounded to two decimals, and stable-sort
ascending by the stored (rounded) average.  (Python's `list.sort` is a stable
sort; `List.insertionSort` with the same non-strict key order is also stable,
and stable sorts agree, so the modelled output coincides.) -/
def calculate_aggregate_rankings (stage2_results : List Stage2Result)
    (label_to_model : List (String × String)) : List AggregateEntry :=
  let aggregate := (model_positions_of label_to_model stage2_results).filterMap
    (fun p =>
      if p.2.isEmpty then none
      else some (⟨p.1, pyRound2 ((p.2.sum : ℚ) / (p.2.length : ℚ)),
        p.2.length⟩ : AggregateEntry))
  aggregate.insertionSort (fun a b => a.average_rank ≤ b.average_rank)
/-- The title prompt (council.py, lines 303-308). -/
def title_prompt_text (user_query : String) : String :=
  "Generate a very short title (3-5 words maximum) that summarizes the following question.\nThe title should be concise and descriptive. Do not use quotes or punctuation in the title.\n\nQuestion: "
  ++ user_query
  ++ "\n\nTitle:"
/-- The quote characters stripped from a generated title (`strip('\"\\'')`). -/
def quoteChars : List Char := ['"', '\'']
/-- The title truncation (council.py, lines 329-330). -/
def truncateTitle (t : List Char) : List Char :=
  if 50 < t.length then t.take 47 ++ ['.', '.', '.'] else t
/-- The function `generate_conversation_title` (council.py, lines 293-332): resolve
`cfg.title_model or TITLE_MODEL`; a falsy result or a null query response
yields `"New Conversation"`; otherwise the content is stripped of whitespace,
then of surrounding quotes, then truncated to 47 characters plus `"..."` when
longer than 50.  A `None` content raises (`None.strip()`), modelled as
`Except.error`. -/
def generate_conversation_title (oracle : AdapterOracle) (cfg : ConfigSnapshot)
    (user_query : String) : Except Unit String :=
  let title_prompt := title_prompt_text user_query
  let cfgE := load_council_config cfg
  let effective_title_model :=
    if pyTruthy cfgE.title_model then cfgE.title_model else cfg.TITLE_MODEL
  if pyTruthy effective_title_model then
    match query_model oracle (effective_title_model.getD "")
        [⟨"user", title_prompt⟩] with
    | none => .ok "New Conversation"
    | some r =>
      match r.content with
      | none => .error ()
      | some s =>
        .ok (String.mk (truncateTitle (pyStripCharsL quoteChars
          (pyStripL s.toList))))
  else .ok "New Conversation"
/-- The function `run_full_council` (council.py, lines 335-418), instrumented with a
`RunLog` recording the dispatch list of every network call actually issued.
Short-circuits with a synthetic error result when the effective council is
empty or when Stage 1 produces no successful response; otherwise runs Stage 2
on the survivors, aggregates, and synthesizes via the chairman. -/
def run_full_council (oracle : AdapterOracle) (cfg : ConfigSnapshot)
    (user_query : String) :
    RunLog × Except Unit
      (List Stage1Result × List Stage2Result × Stage3Result ×
        CouncilMetadata) :=
  let cfgE := load_council_config cfg
  if cfgE.council_models.isEmpty then
    (⟨[], [], []⟩, .ok ([], [],
      ⟨"error", some "All models failed to respond. Please check LLM_COUNCIL_MODELS and API keys."⟩,
      ⟨none, none, cfgE.failures, []⟩))
  else
    let stage1_results :=
      stage1_collect_responses oracle user_query cfgE.council_models
    let stage1_models := stage1_results.map (·.model)
    let runtime_failures1 := cfgE.council_models.filterMap
      (fun spec =>
        if stage1_models.contains spec then none
        else some (⟨spec, "stage1", "runtime_failure"⟩ : RuntimeFailure))
    if stage1_results.isEmpty then
      (⟨cfgE.council_models, [], []⟩, .ok ([], [],
        ⟨"error", some "All models failed to respond. Please try again."⟩,
        ⟨none, none, cfgE.failures, runtime_failures1⟩))
    else
      let s2res := stage2_collect_rankings oracle user_query stage1_results
      let label_to_model := s2res.1
      let ranking_models := s2res.2.1
      match s2res.2.2 with
      | .error e => (⟨cfgE.council_models, ranking_models, []⟩, .error e)
      | .ok stage2_results =>
        let stage2_models := stage2_results.map (·.model)
        let runtime_failures := runtime_failures1 ++ stage1_models.filterMap
          (fun spec =>
            if stage2_models.contains spec then none
            else some (⟨spec, "stage2", "runtime_failure"⟩ : RuntimeFailure))
        let aggregate_rankings :=
          calculate_aggregate_rankings stage2_results label_to_model
        match stage3_synthesize_final oracle user_query stage1_results
            stage2_results cfgE.chairman_model cfg.CHAIRMAN_MODEL with
        | .error e => (⟨cfgE.council_models, ranking_models, []⟩, .error e)
        | .ok s3 =>
          (⟨cfgE.council_models, ranking_models, [s3.2]⟩,
            .ok (stage1_results, stage2_results, s3.1,
              ⟨some label_to_model, some aggregate_rankings, cfgE.failures,
                runtime_failures⟩))
/-- A config snapshot whose only council model has no credentials configured:
the effective council is empty. -/
def cfgNoCreds : ConfigSnapshot :=
  ⟨["openai:gpt-4.1-mini"], none, none, none, none, none, none, none, none,
    none, none, none, none, none, none, none, none⟩
/-- A config snapshot with one valid OpenRouter council model. -/
def cfgOneModel : ConfigSnapshot :=
  ⟨["openrouter:meta/llama"], none, none, some "sk-key", none, none, none,
    none, none, none, none, none, none, none, none, none, none⟩
/-- Oracle for the C7 witness: the model named `bad` always raises, every
other model answers `"text"`. -/
def oracle2m : AdapterOracle :=
  fun _ name _ =>
    if name = "bad" then .exn else .ok ⟨some "text", none⟩
/-- Config snapshot with two valid OpenRouter council models. -/
def cfgTwoModels : ConfigSnapshot :=
  ⟨["openrouter:good", "openrouter:bad"], none, none, some "sk-key", none,
    none, none, none, none, none, none, none, none, none, none, none, none⟩
/-- The full pipeline output for the C7 witness configuration. -/
def outTwoModels :
    List Stage1Result × List Stage2Result × Stage3Result × CouncilMetadata :=
  ([⟨"openrouter:good", some "text"⟩],
   [⟨"openrouter:good", "text", []⟩],
   ⟨"openrouter:good", some "text"⟩,
   ⟨some [("Response A", "openrouter:good")], some [], [],
    [⟨"openrouter:bad", "stage1", "runtime_failure"⟩]⟩)
/-- The uppercase alphabet, for stating the label claims. -/
def upperAlphabet : List Char :=
  ['A', 'B', 'C', 'D', 'E', 'F', 'G', 'H', 'I', 'J', 'K', 'L', 'M',
   'N', 'O', 'P', 'Q', 'R', 'S', 'T', 'U', 'V', 'W', 'X', 'Y', 'Z']
/-- A three-model Stage 1 result list for the C8 witness. -/
def s1Three : List Stage1Result :=
  [⟨"m1", some "a"⟩, ⟨"m2", some "b"⟩, ⟨"m3", some "c"⟩]
/-- A config snapshot whose raw council list repeats one valid model. -/
def cfgDup : ConfigSnapshot :=
  ⟨["openrouter:m", "openrouter:m"], none, none, some "sk-key", none, none,
    none, none, none, none, none, none, none, none, none, none, none⟩
/-- A valid council model plus a chairman override pointing elsewhere. -/
def cfgBadChair : ConfigSnapshot :=
  ⟨["openrouter:m"], some "openrouter:x", none, some "sk-key", none, none,
    none, none, none, none, none, none, none, none, none, none, none⟩
/-- A valid council model with a matching chairman override. -/
def cfgGoodChair : ConfigSnapshot :=
  ⟨["openrouter:m"], some "openrouter:m", none, some "sk-key", none, none,
    none, none, none, none, none, none, none, none, none, none, none⟩
/-- A long, quoted, padded title content for the C10 witness. -/
def contentW : String :=
  "  \"A deliberately very long conversation title that runs past fifty characters\"  "
/-- Oracle answering every query with the long title content. -/
def oracleTitle : AdapterOracle := fun _ _ _ => .ok ⟨some contentW, none⟩
/-- Declarative positions: for each Stage 2 entry in order, the 1-based
positions in its parsed ranking whose label resolves to `m` via the map
(unresolvable labels are skipped but still occupy positions). -/
def positionsOfModel (s2 : List Stage2Result) (lm : List (String × String))
    (m : String) : List Nat :=
  s2.flatMap (fun r =>
    ((parse_ranking_from_text r.ranking).enumFrom 1).filterMap
      (fun p => match lm.lookup p.2 with
        | some mdl => if mdl = m then some p.1 else none
        | none => none))
/-- The exact (unrounded) mean of a position list, over `ℚ`. -/
def meanQ (ps : List Nat) : ℚ := (ps.sum : ℚ) / (ps.length : ℚ)
/-- The map and rankings of the spec's aggregation example: two rankings
`[C, A, B]` and `[A, C, B]` over three models. -/
def lmEx : List (String × String) :=
  [("Response A", "mA"), ("Response B", "mB"), ("Response C", "mC")]
/-- The Stage 2 results of the spec's aggregation example. -/
def s2Ex : List Stage2Result :=
  [⟨"r1", "FINAL RANKING:\n1. Response C\n2. Response A\n3. Response B", []⟩,
   ⟨"r2", "FINAL RANKING:\n1. Response A\n2. Response C\n3. Response B", []⟩]
/-- Map for the C4 counterexample: only label A resolves. -/
def lm4 : List (String × String) := [("Response A", "modelA")]
/-- Rankings giving modelA the positions `[1, 1, 2]` (mean 4/3). -/
def s24 : List Stage2Result :=
  [⟨"r1", "Response A", []⟩, ⟨"r2", "Response A", []⟩,
   ⟨"r3", "Response B Response A", []⟩]
/-- Map for the C5 counterexample. -/
def lm5 : List (String × String) :=
  [("Response A", "modelA"), ("Response B", "modelB")]
/-- Rankings giving modelA positions `[1,1,2]` (mean 4/3 ≈ 1.3333) and
modelB 43 positions summing 57 (mean 57/43 ≈ 1.3256): both round to 1.33. -/
def s25 : List Stage2Result :=
  [⟨"r1", "Response A Response B", []⟩,
   ⟨"r2", "Response A Response B", []⟩,
   ⟨"r3", "Response B Response A", []⟩]
  ++ List.replicate 12 ⟨"rx", "Response C Response B", []⟩
  ++ List.replicate 28 ⟨"ry", "Response B", []⟩
/-- modelB's 43 positions in the C5 counterexample. -/
def posB : List Nat := [2, 2, 1] ++ List.replicate 12 2 ++ List.replicate 28 1
/-- Input separating the code from claim C3's literal reading: the region
between the two markers matters (excluding `9. Response C`), and the strict
regex `\d+\.\s*` accepts the newline in `1.\nResponse A`. -/
def c3input : String :=
  "FINAL RANKING: 1.\nResponse A and Response B FINAL RANKING: 9. Response C"
/-! ## Theorems -/
/-- C1: for every model spec and message list, `query_model` never propagates
an adapter failure: an unrecognized provider key yields null without the
adapter ever being consulted (never silently routed to a default backend), a
`ConfigError` yields null, an HTTP status error yields null with 401 given the
distinct unauthorized diagnostic, any other exception yields null, and the
returned value is always either a response dict or null (non-null only for a
successful adapter response). -/
theorem C1_query_model_failure_isolation (oracle : AdapterOracle)
    (spec : String) (messages : List ChatMessage) :
    ((parse_model_spec spec).1 ∉ PROVIDERS →
      query_model oracle spec messages = none ∧
      query_model_diag oracle spec messages = .unknownProvider ∧
      ∀ oracle2 : AdapterOracle, query_model oracle2 spec messages = none) ∧
    (∀ msg, (parse_model_spec spec).1 ∈ PROVIDERS →
      oracle (parse_model_spec spec).1 (parse_model_spec spec).2 messages =
        .configError msg →
      query_model oracle spec messages = none ∧
      query_model_diag oracle spec messages = .configError) ∧
    ((parse_model_spec spec).1 ∈ PROVIDERS →
      oracle (parse_model_spec spec).1 (parse_model_spec spec).2 messages =
        .httpStatus 401 →
      query_model oracle spec messages = none ∧
      query_model_diag oracle spec messages = .unauthorized) ∧
    (∀ status, status ≠ 401 →
      (parse_model_spec spec).1 ∈ PROVIDERS →
      oracle (parse_model_spec spec).1 (parse_model_spec spec).2 messages =
        .httpStatus status →
      query_model oracle spec messages = none ∧
      query_model_diag oracle spec messages = .httpError status) ∧
    ((parse_model_spec spec).1 ∈ PROVIDERS →
      oracle (parse_model_spec spec).1 (parse_model_spec spec).2 messages =
        .exn →
      query_model oracle spec messages = none ∧
      query_model_diag oracle spec messages = .genericError) ∧
    (query_model oracle spec messages = none ∨
      ∃ r, oracle (parse_model_spec spec).1 (parse_model_spec spec).2 messages
          = .ok r ∧
        query_model oracle spec messages = some r) := by
  refine ⟨?_, ?_, ?_, ?_, ?_, ?_⟩
  · intro h
    refine ⟨?_, ?_, fun oracle2 => ?_⟩ <;>
      simp [query_model, query_model_diag, h]
  · intro msg hc ho
    constructor <;> simp [query_model, query_model_diag, hc, ho]
  · intro hc ho
    constructor <;> simp [query_model, query_model_diag, hc, ho]
  · intro status hs hc ho
    constructor <;> simp [query_model, query_model_diag, hc, ho, hs]
  · intro hc ho
    constructor <;> simp [query_model, query_model_diag, hc, ho]
  · by_cases hc : (parse_model_spec spec).1 ∈ PROVIDERS
    · cases ho : oracle (parse_model_spec spec).1 (parse_model_spec spec).2
          messages with
      | ok r => exact Or.inr ⟨r, rfl, by simp [query_model, hc, ho]⟩
      | configError msg => exact Or.inl (by simp [query_model, hc, ho])
      | httpStatus status => exact Or.inl (by simp [query_model, hc, ho])
      | exn => exact Or.inl (by simp [query_model, hc, ho])
    · exact Or.inl (by simp [query_model, hc])
/-- Witness for C1 at concrete inputs: the unknown provider `google`, a
config error and an unauthorized status on a known provider. -/
theorem C1_query_model_failure_isolation_witness :
    query_model (fun _ _ _ => .httpStatus 401) "google:gemini-pro" [] = none ∧
    query_model_diag (fun _ _ _ => .httpStatus 401) "google:gemini-pro" [] =
      .unknownProvider ∧
    query_model (fun _ _ _ => .configError "missing key") "openai:gpt-4" [] =
      none ∧
    query_model_diag (fun _ _ _ => .httpStatus 401) "openai:gpt-4" [] =
      .unauthorized := by
  refine ⟨?_, ?_, ?_, ?_⟩
  · exact ((C1_query_model_failure_isolation (fun _ _ _ => .httpStatus 401)
      "google:gemini-pro" []).1 (by decide)).1
  · exact ((C1_query_model_failure_isolation (fun _ _ _ => .httpStatus 401)
      "google:gemini-pro" []).1 (by decide)).2.1
  · exact ((C1_query_model_failure_isolation
      (fun _ _ _ => .configError "missing key") "openai:gpt-4" []).2.1
      "missing key" (by decide) rfl).1
  · exact ((C1_query_model_failure_isolation (fun _ _ _ => .httpStatus 401)
      "openai:gpt-4" []).2.2.1 (by decide) rfl).2
/-- Membership in the modelled dict keys agrees with membership in the
inserted list. -/
theorem mem_pyDictKeys {m : String} : ∀ {l : List String},
    m ∈ pyDictKeys l ↔ m ∈ l := by
  intro l
  induction l with
  | nil => simp [pyDictKeys]
  | cons a as ih =>
    by_cases h : m = a
    · subst h; simp [pyDictKeys]
    · simp only [pyDictKeys, List.mem_cons, h, false_or]
      rw [List.mem_filter, ih]
      simp [h]
/-- A `filterMap` of a total function is `map`. -/
theorem filterMap_some_eq_map {α β : Type} (f : α → β) : ∀ l : List α,
    l.filterMap (fun a => some (f a)) = l.map f := by
  intro l
  induction l with
  | nil => rfl
  | cons a as ih => simp [List.filterMap_cons, ih]
/-- The models of the Stage 1 survivors are exactly the dispatched dict keys
whose query succeeded, in order. -/
theorem stage1_aux (oracle : AdapterOracle) (msgs : List ChatMessage) :
    ∀ l : List String,
    ((l.map (fun m => (m, query_model oracle m msgs))).filterMap
      (fun p => p.2.map (fun r => (⟨p.1, r.content⟩ : Stage1Result)))).map
        (·.model)
    = l.filter (fun m => (query_model oracle m msgs).isSome) := by
  intro l
  induction l with
  | nil => rfl
  | cons k ks ih =>
    simp only [List.filterMap_map] at ih ⊢
    cases hq : query_model oracle k msgs with
    | none => simp [List.filterMap_cons, List.filter_cons, Function.comp, hq, ih]
    | some r => simp [List.filterMap_cons, List.filter_cons, Function.comp, hq, ih]
/-- The function `stage1_collect_responses` keeps exactly the successfully-answering
models, in dict order. -/
theorem stage1_map_model (oracle : AdapterOracle) (uq : String)
    (ms : List String) :
    (stage1_collect_responses oracle uq ms).map (·.model) =
      (pyDictKeys ms).filter
        (fun m => (query_model oracle m [⟨"user", uq⟩]).isSome) := by
  unfold stage1_collect_responses query_models_parallel
  exact stage1_aux oracle [⟨"user", uq⟩] (pyDictKeys ms)
/-- If every dispatched model fails, Stage 1 collects nothing. -/
theorem stage1_nil (oracle : AdapterOracle) (uq : String) (ms : List String)
    (h : ∀ m ∈ ms, query_model oracle m [⟨"user", uq⟩] = none) :
    stage1_collect_responses oracle uq ms = [] := by
  unfold stage1_collect_responses query_models_parallel
  rw [List.filterMap_eq_nil_iff]
  intro p hp
  obtain ⟨m, hm, rfl⟩ := List.mem_map.mp hp
  rw [h m (mem_pyDictKeys.mp hm)]
  rfl
/-- C2: if the effective council list is empty, or every Stage 1 query
returns null, `run_full_council` returns empty Stage 1 and Stage 2 results, a
`Stage3Result` with model `"error"` and a human-readable message, and
metadata carrying the accumulated config failures (plus one stage1 runtime
failure per effective model in the zero-success case); no Stage 2 or Stage 3
query is ever dispatched in these cases. -/
theorem C2_run_full_council_abort (oracle : AdapterOracle)
    (cfg : ConfigSnapshot) (uq : String) :
    ((load_council_config cfg).council_models = [] →
      run_full_council oracle cfg uq =
        (⟨[], [], []⟩, .ok ([], [],
          ⟨"error", some "All models failed to respond. Please check LLM_COUNCIL_MODELS and API keys."⟩,
          ⟨none, none, (load_council_config cfg).failures, []⟩))) ∧
    ((load_council_config cfg).council_models ≠ [] →
      (∀ m ∈ (load_council_config cfg).council_models,
        query_model oracle m [⟨"user", uq⟩] = none) →
      run_full_council oracle cfg uq =
        (⟨(load_council_config cfg).council_models, [], []⟩, .ok ([], [],
          ⟨"error", some "All models failed to respond. Please try again."⟩,
          ⟨none, none, (load_council_config cfg).failures,
            (load_council_config cfg).council_models.map
              (fun s => ⟨s, "stage1", "runtime_failure"⟩)⟩))) := by
  constructor
  · intro h
    simp [run_full_council, h]
  · intro hne hall
    have h1 : stage1_collect_responses oracle uq
        (load_council_config cfg).council_models = [] :=
      stage1_nil oracle uq _ hall
    have hne' : (load_council_config cfg).council_models.isEmpty = false := by
      simpa [List.isEmpty_iff] using hne
    simp only [run_full_council, hne', Bool.false_eq_true, if_false, h1,
      List.map_nil, List.isEmpty_nil, if_true]
    rw [show ∀ l : List String, (l.filterMap (fun spec =>
        if ([] : List String).contains spec then none
        else some (⟨spec, "stage1", "runtime_failure"⟩ : RuntimeFailure)))
        = l.map (fun s => ⟨s, "stage1", "runtime_failure"⟩) from ?_]
    · intro l
      rw [← filterMap_some_eq_map]
      apply List.filterMap_congr
      intro a _
      simp
/-- Witness for C2: both abort cases at concrete configurations (no valid
model; one valid model whose every query fails). -/
theorem C2_run_full_council_abort_witness :
    (run_full_council (fun _ _ _ => .exn) cfgNoCreds "hi" =
      (⟨[], [], []⟩, .ok ([], [],
        ⟨"error", some "All models failed to respond. Please check LLM_COUNCIL_MODELS and API keys."⟩,
        ⟨none, none, (load_council_config cfgNoCreds).failures, []⟩))) ∧
    (run_full_council (fun _ _ _ => .exn) cfgOneModel "hi" =
      (⟨(load_council_config cfgOneModel).council_models, [], []⟩, .ok ([], [],
        ⟨"error", some "All models failed to respond. Please try again."⟩,
        ⟨none, none, (load_council_config cfgOneModel).failures,
          (load_council_config cfgOneModel).council_models.map
            (fun s => ⟨s, "stage1", "runtime_failure"⟩)⟩))) := by
  constructor
  · exact (C2_run_full_council_abort (fun _ _ _ => .exn) cfgNoCreds "hi").1
      (by decide)
  · exact (C2_run_full_council_abort (fun _ _ _ => .exn) cfgOneModel "hi").2
      (by decide) (by decide)
/-- Membership in a `filterMap` guarded by a false condition. -/
theorem mem_filterMap_if {α β : Type} (f : α → β) (cond : α → Bool) {a : α}
    {l : List α} (ha : a ∈ l) (hc : cond a = false) :
    f a ∈ l.filterMap (fun x => if cond x then none else some (f x)) :=
  List.mem_filterMap.mpr ⟨a, ha, by simp [hc]⟩
/-- C7: the Stage 2 ranking prompt is dispatched to exactly the models that
produced a non-null Stage 1 response (in dispatch order), and whenever the
pipeline returns, every effective council model absent from the Stage 1
surviving set has a `runtime_failure` record tagged `"stage1"` naming its spec
in the metadata. -/
theorem C7_stage2_dispatch_and_stage1_failures (oracle : AdapterOracle)
    (cfg : ConfigSnapshot) (uq : String) :
    ((run_full_council oracle cfg uq).1.stage2_dispatch =
      (pyDictKeys (load_council_config cfg).council_models).filter
        (fun m => (query_model oracle m [⟨"user", uq⟩]).isSome)) ∧
    (∀ out, (run_full_council oracle cfg uq).2 = .ok out →
      ∀ spec ∈ (load_council_config cfg).council_models,
        spec ∉ (pyDictKeys (load_council_config cfg).council_models).filter
          (fun m => (query_model oracle m [⟨"user", uq⟩]).isSome) →
        (⟨spec, "stage1", "runtime_failure"⟩ : RuntimeFailure) ∈
          out.2.2.2.runtime_failures) := by
  have F1 := stage1_map_model oracle uq (load_council_config cfg).council_models
  constructor
  · unfold run_full_council
    by_cases hempty : (load_council_config cfg).council_models.isEmpty
    · have hnil : (load_council_config cfg).council_models = [] := by
        simpa [List.isEmpty_iff] using hempty
      simp [hempty, hnil, pyDictKeys]
    · simp only [hempty, Bool.false_eq_true, if_false]
      by_cases h1 : (stage1_collect_responses oracle uq
          (load_council_config cfg).council_models).isEmpty
      · have h1n : stage1_collect_responses oracle uq
            (load_council_config cfg).council_models = [] := by
          simpa [List.isEmpty_iff] using h1
        rw [h1n] at F1
        simp [h1, ← F1]
      · simp only [h1, Bool.false_eq_true, if_false]
        rw [← F1]
        split
        · rfl
        · split <;> rfl
  · intro out hout spec hspec hnotin
    rw [← F1] at hnotin
    have hcon : ((stage1_collect_responses oracle uq
        (load_council_config cfg).council_models).map (·.model)).contains spec
        = false := by simp [hnotin]
    unfold run_full_council at hout
    by_cases hempty : (load_council_config cfg).council_models.isEmpty
    · have hnil : (load_council_config cfg).council_models = [] := by
        simpa [List.isEmpty_iff] using hempty
      rw [hnil] at hspec
      exact absurd hspec (List.not_mem_nil spec)
    · simp only [hempty, Bool.false_eq_true, if_false] at hout
      by_cases h1 : (stage1_collect_responses oracle uq
          (load_council_config cfg).council_models).isEmpty
      · simp only [h1, if_true] at hout
        obtain rfl := (Except.ok.inj hout).symm
        exact mem_filterMap_if
          (fun spec => (⟨spec, "stage1", "runtime_failure"⟩ : RuntimeFailure))
          _ hspec hcon
      · simp only [h1, Bool.false_eq_true, if_false] at hout
        split at hout
        · exact absurd hout (by simp)
        · split at hout
          · exact absurd hout (by simp)
          · obtain rfl := (Except.ok.inj hout).symm
            exact List.mem_append_left _ (mem_filterMap_if
              (fun spec =>
                (⟨spec, "stage1", "runtime_failure"⟩ : RuntimeFailure))
              _ hspec hcon)
/-- Witness for C7: with two configured models, one failing Stage 1, the
Stage 2 prompt goes to exactly the surviving model and the failed model gets a
stage1 runtime-failure record. -/
theorem C7_stage2_dispatch_and_stage1_failures_witness :
    (run_full_council oracle2m cfgTwoModels "q").1.stage2_dispatch =
      ["openrouter:good"] ∧
    (⟨"openrouter:bad", "stage1", "runtime_failure"⟩ : RuntimeFailure) ∈
      outTwoModels.2.2.2.runtime_failures := by
  constructor
  · exact ((C7_stage2_dispatch_and_stage1_failures oracle2m cfgTwoModels
      "q").1).trans (by decide)
  · exact (C7_stage2_dispatch_and_stage1_failures oracle2m cfgTwoModels "q").2
      outTwoModels (by decide) "openrouter:bad" (by decide) (by decide)
/-- For at most 26 results, the computed labels are alphabet positions. -/
theorem stage2_labels_take : ∀ n < 27, stage2_labels n = upperAlphabet.take n := by
  decide
/-- The label string builder is injective. -/
theorem respLabel_injective :
    Function.Injective (fun c => "Response " ++ String.mk [c]) := by
  intro c d h
  have h2 := congrArg String.toList h
  simp only [String.toList, String.data_append] at h2
  exact List.head_eq_of_cons_eq (List.append_cancel_left h2)
/-- C8 (amended): for every list of at most 26 surviving Stage 1 results, the
labels are exactly the first N uppercase letters in order with no gaps,
duplicates or reordering, and `label_to_model` pairs the i-th key
`"Response <letter>"` with the model of the i-th Stage 1 result — a bijection
over the list (positionally pairing keys with models, with distinct keys). -/
theorem C8_labels_amended (oracle : AdapterOracle) (uq : String)
    (s1 : List Stage1Result) (h : s1.length ≤ 26) :
    stage2_labels s1.length = upperAlphabet.take s1.length ∧
    ((stage2_collect_rankings oracle uq s1).1.map Prod.fst =
      (upperAlphabet.take s1.length).map
        (fun c => "Response " ++ String.mk [c])) ∧
    ((stage2_collect_rankings oracle uq s1).1.map Prod.snd =
      s1.map (·.model)) ∧
    ((stage2_collect_rankings oracle uq s1).1.map Prod.fst).Nodup := by
  have hlab : stage2_labels s1.length = upperAlphabet.take s1.length :=
    stage2_labels_take s1.length (by omega)
  have hlen : (stage2_labels s1.length).length = s1.length := by
    simp [stage2_labels]
  have hfst : (stage2_collect_rankings oracle uq s1).1.map Prod.fst =
      (stage2_labels s1.length).map (fun c => "Response " ++ String.mk [c]) := by
    show (((stage2_labels s1.length).zip s1).map
      (fun p => ("Response " ++ String.mk [p.1], p.2.model))).map Prod.fst = _
    rw [List.map_map]
    have : (Prod.fst ∘ fun p : Char × Stage1Result =>
        ("Response " ++ String.mk [p.1], p.2.model)) =
        (fun c => "Response " ++ String.mk [c]) ∘ Prod.fst := rfl
    rw [this, ← List.map_map, List.map_fst_zip _ _ (le_of_eq hlen)]
  refine ⟨hlab, ?_, ?_, ?_⟩
  · rw [hfst, hlab]
  · show (((stage2_labels s1.length).zip s1).map
      (fun p => ("Response " ++ String.mk [p.1], p.2.model))).map Prod.snd = _
    rw [List.map_map]
    have : (Prod.snd ∘ fun p : Char × Stage1Result =>
        ("Response " ++ String.mk [p.1], p.2.model)) =
        (fun r : Stage1Result => r.model) ∘ Prod.snd := rfl
    rw [this, ← List.map_map, List.map_snd_zip _ _ (le_of_eq hlen.symm)]
  · rw [hfst, hlab]
    have halpha : upperAlphabet.Nodup := by decide
    exact (halpha.sublist (List.take_sublist _ _)).map respLabel_injective
/-- Witness for C8 (amended) at three surviving results. -/
theorem C8_labels_amended_witness :
    stage2_labels s1Three.length = ['A', 'B', 'C'] ∧
    (stage2_collect_rankings (fun _ _ _ => .exn) "q" s1Three).1.map Prod.snd =
      ["m1", "m2", "m3"] ∧
    ((stage2_collect_rankings (fun _ _ _ => .exn) "q" s1Three).1.map
      Prod.fst).Nodup := by
  refine ⟨?_, ?_, ?_⟩
  · exact ((C8_labels_amended (fun _ _ _ => .exn) "q" s1Three
      (by decide)).1).trans (by decide)
  · exact ((C8_labels_amended (fun _ _ _ => .exn) "q" s1Three
      (by decide)).2.2.1).trans (by decide)
  · exact (C8_labels_amended (fun _ _ _ => .exn) "q" s1Three (by decide)).2.2.2
/-- Counterexample to C8 as stated: with 27 surviving results the 27th label
is `'['`, not an uppercase letter, so the labels are not "the first N single
uppercase letters" and `label_to_model` contains the key `"Response ["`. -/
theorem C8_labels_counterexample :
    stage2_labels
        (List.replicate 27 (⟨"m", some ""⟩ : Stage1Result)).length ≠
      upperAlphabet.take
        (List.replicate 27 (⟨"m", some ""⟩ : Stage1Result)).length ∧
    ("Response [", "m") ∈ (stage2_collect_rankings (fun _ _ _ => .exn) "q"
      (List.replicate 27 (⟨"m", some ""⟩ : Stage1Result))).1 ∧
    '[' ∉ upperAlphabet := by
  decide
/-- The `failures` produced by council-model filtering are all
`config_error` records. -/
theorem filterCouncil_fst_error_type (cfg : ConfigSnapshot) :
    ∀ l f, f ∈ (filterCouncilModels cfg l).1 → f.error_type = "config_error" := by
  intro l
  induction l with
  | nil => intro f hf; exact absurd hf (List.not_mem_nil f)
  | cons spec rest ih =>
    intro f hf
    simp only [filterCouncilModels] at hf
    by_cases hm : (missing_env_for_provider cfg
        (parse_model_spec (normalize_model_spec spec)).1).isEmpty
    · rw [if_pos hm] at hf
      exact ih f hf
    · rw [if_neg hm] at hf
      rcases List.mem_cons.mp hf with h | h
      · rw [h]
      · exact ih f h
/-- The effective council models are the normalized raw specs whose provider
configuration is complete, in order. -/
theorem filterCouncil_snd (cfg : ConfigSnapshot) :
    ∀ l, (filterCouncilModels cfg l).2 = (l.map normalize_model_spec).filter
      (fun ns => (missing_env_for_provider cfg (parse_model_spec ns).1).isEmpty) := by
  intro l
  induction l with
  | nil => rfl
  | cons spec rest ih =>
    simp only [filterCouncilModels, List.map_cons, List.filter_cons]
    by_cases hm : (missing_env_for_provider cfg
        (parse_model_spec (normalize_model_spec spec)).1).isEmpty
    · rw [if_pos hm, ih, hm]
      simp
    · rw [if_neg hm, ih, Bool.eq_false_iff.mpr hm]
      simp
/-- C9 (amended): `council_models` preserves the normalized raw specs that
pass provider validation in order without deduplicating, so it contains no
duplicates whenever the normalized raw council list contains none. -/
theorem C9_unique_amended (cfg : ConfigSnapshot)
    (h : (cfg.COUNCIL_MODELS.map normalize_model_spec).Nodup) :
    (load_council_config cfg).council_models.Nodup := by
  have e : (load_council_config cfg).council_models =
      (filterCouncilModels cfg cfg.COUNCIL_MODELS).2 := rfl
  rw [e, filterCouncil_snd]
  exact h.filter _
/-- Witness for C9 (amended): distinct configured models yield a
duplicate-free effective council. -/
theorem C9_unique_amended_witness :
    (load_council_config cfgTwoModels).council_models.Nodup :=
  C9_unique_amended cfgTwoModels (by decide)
/-- Counterexample to C9 as stated: a repeated raw spec passes validation
twice and the effective council list contains a duplicate. -/
theorem C9_unique_counterexample :
    (load_council_config cfgDup).council_models =
      ["openrouter:m", "openrouter:m"] ∧
    ¬ (load_council_config cfgDup).council_models.Nodup := by
  decide
/-- Title resolution only ever appends a `config_error` failure. -/
theorem title_resolution_failures (cfg : ConfigSnapshot) (ch : Option String)
    (fs : List ConfigFailure) :
    (title_resolution cfg ch fs).2 = fs ∨
    ∃ g : ConfigFailure, (title_resolution cfg ch fs).2 = fs ++ [g] ∧
      g.error_type = "config_error" := by
  unfold title_resolution
  dsimp only
  split <;> split
  · split
    · left; rfl
    · right; exact ⟨_, rfl, rfl⟩
  · left; rfl
  · split
    · left; rfl
    · right; exact ⟨_, rfl, rfl⟩
  · left; rfl
/-- C6: chairman resolution.  With a non-empty effective list: a set chairman
override (one that trims to a non-empty spec, matching Python truthiness)
present among the effective models becomes the chairman with no
`invalid_chairman` failure; a set override absent from the effective models
records an `invalid_chairman` failure naming the raw override and falls back
to the first effective model; an unset (or blank) override yields the first
effective model.  With an empty effective list the chairman is absent. -/
theorem C6_chairman_resolution (cfg : ConfigSnapshot) :
    ((load_council_config cfg).council_models ≠ [] →
      ∀ c, cfg.CHAIRMAN_MODEL = some c → pyStrip c ≠ "" →
      (load_council_config cfg).council_models.contains (pyStrip c) = true →
      (load_council_config cfg).chairman_model = some (pyStrip c) ∧
      ∀ f ∈ (load_council_config cfg).failures,
        f.error_type ≠ "invalid_chairman") ∧
    ((load_council_config cfg).council_models ≠ [] →
      ∀ c, cfg.CHAIRMAN_MODEL = some c → pyStrip c ≠ "" →
      (load_council_config cfg).council_models.contains (pyStrip c) = false →
      (load_council_config cfg).chairman_model =
        (load_council_config cfg).council_models.get? 0 ∧
      ∃ f ∈ (load_council_config cfg).failures,
        f.error_type = "invalid_chairman" ∧ f.model_spec = c) ∧
    ((load_council_config cfg).council_models ≠ [] →
      (∀ c, cfg.CHAIRMAN_MODEL = some c → pyStrip c = "") →
      (load_council_config cfg).chairman_model =
        (load_council_config cfg).council_models.get? 0) ∧
    ((load_council_config cfg).council_models = [] →
      (load_council_config cfg).chairman_model = none) := by
  refine ⟨?_, ?_, ?_, ?_⟩
  · intro hne c hcm hcs hcontains
    have hemp : (filterCouncilModels cfg cfg.COUNCIL_MODELS).2.isEmpty
        = false := by
      simpa [List.isEmpty_iff] using hne
    have hc0 : c ≠ "" := by
      intro h
      apply hcs
      rw [h]
      decide
    have hcontains2 : pyStrip c ∈
        (filterCouncilModels cfg cfg.COUNCIL_MODELS).2 := by
      have h' : (load_council_config cfg).council_models =
          (filterCouncilModels cfg cfg.COUNCIL_MODELS).2 := rfl
      rw [h'] at hcontains
      simpa using hcontains
    have hch : chairman_resolution cfg
        (filterCouncilModels cfg cfg.COUNCIL_MODELS).2
        (filterCouncilModels cfg cfg.COUNCIL_MODELS).1 =
        (some (pyStrip c), (filterCouncilModels cfg cfg.COUNCIL_MODELS).1) := by
      unfold chairman_resolution
      simp [hemp, hcm, hc0, pyTruthy, normalize_model_spec, hcs, hcontains2]
    constructor
    · show (chairman_resolution cfg
        (filterCouncilModels cfg cfg.COUNCIL_MODELS).2
        (filterCouncilModels cfg cfg.COUNCIL_MODELS).1).1 = some (pyStrip c)
      rw [hch]
    · intro f hf
      have e : (load_council_config cfg).failures =
          (title_resolution cfg (some (pyStrip c))
            (filterCouncilModels cfg cfg.COUNCIL_MODELS).1).2 := by
        show (title_resolution cfg
          (chairman_resolution cfg
            (filterCouncilModels cfg cfg.COUNCIL_MODELS).2
            (filterCouncilModels cfg cfg.COUNCIL_MODELS).1).1
          (chairman_resolution cfg
            (filterCouncilModels cfg cfg.COUNCIL_MODELS).2
            (filterCouncilModels cfg cfg.COUNCIL_MODELS).1).2).2 = _
        rw [hch]
      have hff := e ▸ hf
      rcases title_resolution_failures cfg (some (pyStrip c))
          (filterCouncilModels cfg cfg.COUNCIL_MODELS).1 with h | ⟨g, hg, hgty⟩
      · rw [h] at hff
        rw [filterCouncil_fst_error_type cfg cfg.COUNCIL_MODELS f hff]
        decide
      · rw [hg] at hff
        rcases List.mem_append.mp hff with h1 | h1
        · rw [filterCouncil_fst_error_type cfg cfg.COUNCIL_MODELS f h1]
          decide
        · rw [List.mem_singleton.mp h1, hgty]
          decide
  · intro hne c hcm hcs hcontains
    have hemp : (filterCouncilModels cfg cfg.COUNCIL_MODELS).2.isEmpty
        = false := by
      simpa [List.isEmpty_iff] using hne
    have hc0 : c ≠ "" := by
      intro h
      apply hcs
      rw [h]
      decide
    have hncontains2 : pyStrip c ∉
        (filterCouncilModels cfg cfg.COUNCIL_MODELS).2 := by
      have h' : (load_council_config cfg).council_models =
          (filterCouncilModels cfg cfg.COUNCIL_MODELS).2 := rfl
      rw [h'] at hcontains
      simpa using hcontains
    have hch : chairman_resolution cfg
        (filterCouncilModels cfg cfg.COUNCIL_MODELS).2
        (filterCouncilModels cfg cfg.COUNCIL_MODELS).1 =
        ((filterCouncilModels cfg cfg.COUNCIL_MODELS).2.get? 0,
         (filterCouncilModels cfg cfg.COUNCIL_MODELS).1 ++
           [⟨c, (parse_model_spec (pyStrip c)).1, "invalid_chairman", []⟩]) := by
      unfold chairman_resolution
      simp [hemp, hcm, hc0, pyTruthy, normalize_model_spec, hcs, hncontains2]
    constructor
    · show (chairman_resolution cfg
        (filterCouncilModels cfg cfg.COUNCIL_MODELS).2
        (filterCouncilModels cfg cfg.COUNCIL_MODELS).1).1 =
        (load_council_config cfg).council_models.get? 0
      rw [hch]
      rfl
    · have e : (load_council_config cfg).failures =
          (title_resolution cfg
            ((filterCouncilModels cfg cfg.COUNCIL_MODELS).2.get? 0)
            ((filterCouncilModels cfg cfg.COUNCIL_MODELS).1 ++
              [⟨c, (parse_model_spec (pyStrip c)).1,
                "invalid_chairman", []⟩])).2 := by
        show (title_resolution cfg
          (chairman_resolution cfg
            (filterCouncilModels cfg cfg.COUNCIL_MODELS).2
            (filterCouncilModels cfg cfg.COUNCIL_MODELS).1).1
          (chairman_resolution cfg
            (filterCouncilModels cfg cfg.COUNCIL_MODELS).2
            (filterCouncilModels cfg cfg.COUNCIL_MODELS).1).2).2 = _
        rw [hch]
      refine ⟨⟨c, (parse_model_spec (pyStrip c)).1, "invalid_chairman", []⟩,
        ?_, rfl, rfl⟩
      rw [e]
      rcases title_resolution_failures cfg
          ((filterCouncilModels cfg cfg.COUNCIL_MODELS).2.get? 0)
          ((filterCouncilModels cfg cfg.COUNCIL_MODELS).1 ++
            [⟨c, (parse_model_spec (pyStrip c)).1, "invalid_chairman", []⟩])
          with h | ⟨g, hg, _⟩
      · rw [h]
        exact List.mem_append_right _ (List.mem_singleton_self _)
      · rw [hg]
        exact List.mem_append_left _
          (List.mem_append_right _ (List.mem_singleton_self _))
  · intro hne hc
    have hemp : (filterCouncilModels cfg cfg.COUNCIL_MODELS).2.isEmpty
        = false := by
      simpa [List.isEmpty_iff] using hne
    have hch : chairman_resolution cfg
        (filterCouncilModels cfg cfg.COUNCIL_MODELS).2
        (filterCouncilModels cfg cfg.COUNCIL_MODELS).1 =
        ((filterCouncilModels cfg cfg.COUNCIL_MODELS).2.get? 0,
         (filterCouncilModels cfg cfg.COUNCIL_MODELS).1) := by
      cases hcm : cfg.CHAIRMAN_MODEL with
      | none =>
        unfold chairman_resolution
        simp [hemp, hcm, pyTruthy, normalize_model_spec]
      | some c =>
        have hstrip : pyStrip c = "" := hc c hcm
        by_cases hce : c = ""
        · unfold chairman_resolution
          simp [hemp, hcm, hce, pyTruthy, normalize_model_spec]
        · unfold chairman_resolution
          simp [hemp, hcm, hce, hstrip, pyTruthy, normalize_model_spec]
    show (chairman_resolution cfg
      (filterCouncilModels cfg cfg.COUNCIL_MODELS).2
      (filterCouncilModels cfg cfg.COUNCIL_MODELS).1).1 =
      (load_council_config cfg).council_models.get? 0
    rw [hch]
    rfl
  · intro h
    have he : (filterCouncilModels cfg cfg.COUNCIL_MODELS).2 = [] := h
    show (chairman_resolution cfg
      (filterCouncilModels cfg cfg.COUNCIL_MODELS).2
      (filterCouncilModels cfg cfg.COUNCIL_MODELS).1).1 = none
    rw [he]
    simp [chairman_resolution]
/-- Witness for C6: all four chairman-resolution cases at concrete
configurations. -/
theorem C6_chairman_resolution_witness :
    ((load_council_config cfgGoodChair).chairman_model =
      some "openrouter:m") ∧
    ((load_council_config cfgBadChair).chairman_model =
      some "openrouter:m" ∧
     ∃ f ∈ (load_council_config cfgBadChair).failures,
        f.error_type = "invalid_chairman" ∧ f.model_spec = "openrouter:x") ∧
    ((load_council_config cfgOneModel).chairman_model =
      some "openrouter:meta/llama") ∧
    ((load_council_config cfgNoCreds).chairman_model = none) := by
  refine ⟨?_, ⟨?_, ?_⟩, ?_, ?_⟩
  · exact (((C6_chairman_resolution cfgGoodChair).1 (by decide) "openrouter:m"
      rfl (by decide) (by decide)).1).trans (by decide)
  · exact (((C6_chairman_resolution cfgBadChair).2.1 (by decide) "openrouter:x"
      rfl (by decide) (by decide)).1).trans (by decide)
  · obtain ⟨f, hf, hty, hspec⟩ := ((C6_chairman_resolution cfgBadChair).2.1
      (by decide) "openrouter:x" rfl (by decide) (by decide)).2
    exact ⟨f, hf, hty, hspec⟩
  · exact (((C6_chairman_resolution cfgOneModel).2.2.1 (by decide)
      (by intro c hc; cases hc)).trans (by decide))
  · exact (C6_chairman_resolution cfgNoCreds).2.2.2 (by decide)
theorem truncateTitle_length (t : List Char) : (truncateTitle t).length ≤ 50 := by
  unfold truncateTitle
  split
  · next h =>
      simp only [List.length_append, List.length_take, List.length_cons,
        List.length_nil]
      omega
  · next h => omega
/-- C10: for every query, `generate_conversation_title` returns a string of
length at most 50 whenever it returns: with no resolvable (truthy) title
model, or a null model response, it returns exactly `"New Conversation"`;
when the response carries textual content, the content is whitespace-trimmed,
stripped of surrounding quote characters, and truncated to its first 47
characters plus `"..."` when longer than 50. -/
theorem C10_generate_title (oracle : AdapterOracle) (cfg : ConfigSnapshot)
    (uq : String) :
    (∀ t, generate_conversation_title oracle cfg uq = .ok t →
      t.length ≤ 50) ∧
    (pyTruthy (if pyTruthy (load_council_config cfg).title_model
        then (load_council_config cfg).title_model else cfg.TITLE_MODEL)
        = false →
      generate_conversation_title oracle cfg uq = .ok "New Conversation") ∧
    (∀ eff, (if pyTruthy (load_council_config cfg).title_model
        then (load_council_config cfg).title_model else cfg.TITLE_MODEL)
        = some eff →
      eff ≠ "" →
      query_model oracle eff [⟨"user", title_prompt_text uq⟩] = none →
      generate_conversation_title oracle cfg uq = .ok "New Conversation") ∧
    (∀ eff r s, (if pyTruthy (load_council_config cfg).title_model
        then (load_council_config cfg).title_model else cfg.TITLE_MODEL)
        = some eff →
      eff ≠ "" →
      query_model oracle eff [⟨"user", title_prompt_text uq⟩] = some r →
      r.content = some s →
      generate_conversation_title oracle cfg uq =
        .ok (String.mk (truncateTitle (pyStripCharsL quoteChars
          (pyStripL s.toList))))) := by
  refine ⟨?_, ?_, ?_, ?_⟩
  · intro t ht
    by_cases hE : pyTruthy (if pyTruthy (load_council_config cfg).title_model
        then (load_council_config cfg).title_model else cfg.TITLE_MODEL)
    · simp only [generate_conversation_title, hE, if_true] at ht
      cases hq : query_model oracle ((if pyTruthy
          (load_council_config cfg).title_model
          then (load_council_config cfg).title_model
          else cfg.TITLE_MODEL).getD "") [⟨"user", title_prompt_text uq⟩] with
      | none =>
        rw [hq] at ht
        obtain rfl := (Except.ok.inj ht)
        decide
      | some r =>
        rw [hq] at ht
        dsimp only at ht
        cases hr : r.content with
        | none => rw [hr] at ht; exact absurd ht (by simp)
        | some s =>
          rw [hr] at ht
          obtain rfl := (Except.ok.inj ht)
          show (String.mk (truncateTitle (pyStripCharsL quoteChars
            (pyStripL s.toList)))).length ≤ 50
          show (truncateTitle (pyStripCharsL quoteChars
            (pyStripL s.toList))).length ≤ 50
          exact truncateTitle_length _
    · simp only [generate_conversation_title, hE, Bool.false_eq_true,
        if_false] at ht
      obtain rfl := (Except.ok.inj ht)
      decide
  · intro hE
    simp [generate_conversation_title, hE]
  · intro eff hEq hne hq
    have hE : pyTruthy (if pyTruthy (load_council_config cfg).title_model
        then (load_council_config cfg).title_model else cfg.TITLE_MODEL)
        = true := by
      rw [hEq]
      simpa [pyTruthy] using hne
    simp only [generate_conversation_title, hE, if_true, hEq]
    rw [show (some eff).getD "" = eff from rfl, hq]
    split <;> rfl
  · intro eff r s hEq hne hq hr
    have hE : pyTruthy (if pyTruthy (load_council_config cfg).title_model
        then (load_council_config cfg).title_model else cfg.TITLE_MODEL)
        = true := by
      rw [hEq]
      simpa [pyTruthy] using hne
    simp only [generate_conversation_title, hE, if_true, hEq]
    rw [show (some eff).getD "" = eff from rfl, hq]
    have hpt : pyTruthy (some eff) = true := by simpa [pyTruthy] using hne
    rw [hpt]
    dsimp only
    rw [hr]
    rfl
/-- Witness for C10: the generated title is the stripped, unquoted, truncated
content, and is at most 50 characters long. -/
theorem C10_generate_title_witness :
    generate_conversation_title oracleTitle cfgOneModel "q" =
      .ok (String.mk (truncateTitle (pyStripCharsL quoteChars
        (pyStripL contentW.toList)))) ∧
    (String.mk (truncateTitle (pyStripCharsL quoteChars
      (pyStripL contentW.toList)))).length ≤ 50 := by
  have h4 := (C10_generate_title oracleTitle cfgOneModel "q").2.2.2
    "openrouter:meta/llama" ⟨some contentW, none⟩ contentW (by decide)
    (by decide) (by decide) rfl
  exact ⟨h4, (C10_generate_title oracleTitle cfgOneModel "q").1 _ h4⟩
/-- Updating via `addPosition` changes exactly the looked-up model's position list. -/
theorem lookup_addPosition (m' : String) :
    ∀ (st : List (String × List Nat)) (m : String) (p : Nat),
    List.lookup m' (addPosition st m p) =
      if m' = m then some (((List.lookup m' st).getD []) ++ [p])
      else List.lookup m' st := by
  intro st
  induction st with
  | nil =>
    intro m p
    by_cases h : m' = m
    · subst h
      simp [addPosition, List.lookup]
    · have hb : (m' == m) = false := beq_eq_false_iff_ne.mpr h
      simp [addPosition, List.lookup, h, hb]
  | cons e rest ih =>
    intro m p
    obtain ⟨k, ps⟩ := e
    by_cases hkm : k = m
    · subst hkm
      by_cases h : m' = k
      · subst h
        simp [addPosition, List.lookup]
      · have hb : (m' == k) = false := beq_eq_false_iff_ne.mpr h
        simp [addPosition, List.lookup, h, hb]
    · by_cases h : m' = k
      · subst h
        have hb : (m' == m) = false := beq_eq_false_iff_ne.mpr hkm
        simp [addPosition, hkm, List.lookup, Ne.symm hkm, hb]
      · have hb : (m' == k) = false := beq_eq_false_iff_ne.mpr h
        simp [addPosition, hkm, List.lookup, h, hb, ih]
/-- A successful association-list lookup is a member. -/
theorem lookup_mem : ∀ {st : List (String × List Nat)} {k : String}
    {v : List Nat}, List.lookup k st = some v → (k, v) ∈ st := by
  intro st
  induction st with
  | nil => intro k v h; simp [List.lookup] at h
  | cons e rest ih =>
    intro k v h
    obtain ⟨k', v'⟩ := e
    by_cases hk : k = k'
    · subst hk
      simp [List.lookup] at h
      subst h
      exact List.mem_cons_self _ _
    · have hb : (k == k') = false := beq_eq_false_iff_ne.mpr hk
      simp [List.lookup, hb] at h
      exact List.mem_cons_of_mem _ (ih h)
/-- With duplicate-free keys, a member is found by lookup. -/
theorem mem_lookup : ∀ {st : List (String × List Nat)},
    (st.map Prod.fst).Nodup → ∀ {k : String} {v : List Nat},
    (k, v) ∈ st → List.lookup k st = some v := by
  intro st
  induction st with
  | nil => intro _ k v h; cases h
  | cons e rest ih =>
    intro hnd k v h
    obtain ⟨k', v'⟩ := e
    rcases List.mem_cons.mp h with h1 | h1
    · cases h1
      simp [List.lookup]
    · have hk : k ≠ k' := by
        intro he
        subst he
        have hkeys : k ∈ rest.map Prod.fst :=
          List.mem_map.mpr ⟨(k, v), h1, rfl⟩
        exact (List.nodup_cons.mp hnd).1 hkeys
      have hb : (k == k') = false := beq_eq_false_iff_ne.mpr hk
      simp only [List.lookup, hb]
      exact ih (List.nodup_cons.mp hnd).2 h1
/-- Updating via `addPosition` keeps the key list, appending the model when absent. -/
theorem addPosition_keys : ∀ (st : List (String × List Nat)) (m : String)
    (p : Nat), (addPosition st m p).map Prod.fst =
      if (st.map Prod.fst).contains m then st.map Prod.fst
      else st.map Prod.fst ++ [m] := by
  intro st
  induction st with
  | nil => intro m p; simp [addPosition]
  | cons e rest ih =>
    intro m p
    obtain ⟨k, ps⟩ := e
    by_cases hkm : k = m
    · subst hkm
      simp [addPosition]
    · have hb : (k == m) = false := beq_eq_false_iff_ne.mpr hkm
      simp only [addPosition, if_neg hkm, List.map_cons, ih]
      have hb2 : (m == k) = false := beq_eq_false_iff_ne.mpr (Ne.symm hkm)
      have hcc : ((k :: rest.map Prod.fst).contains m) =
          (rest.map Prod.fst).contains m := by
        rw [List.contains_cons, hb2, Bool.false_or]
      rw [hcc]
      by_cases hc : (rest.map Prod.fst).contains m
      · rw [if_pos hc, if_pos hc]
      · rw [if_neg hc, if_neg hc, List.cons_append]
/-- Updating via `addPosition` preserves duplicate-freedom of the keys. -/
theorem addPosition_keys_nodup {st : List (String × List Nat)}
    (h : (st.map Prod.fst).Nodup) (m : String) (p : Nat) :
    ((addPosition st m p).map Prod.fst).Nodup := by
  rw [addPosition_keys]
  by_cases hc : (st.map Prod.fst).contains m
  · rw [if_pos hc]; exact h
  · rw [if_neg hc]
    rw [List.nodup_append]
    refine ⟨h, List.nodup_singleton m, ?_⟩
    intro a ha hb
    rw [List.mem_singleton.mp hb] at ha
    have hmem : (st.map Prod.fst).contains m = true := by simpa using ha
    exact hc hmem
/-- Updating via `addPosition` preserves non-emptiness of all stored position lists. -/
theorem addPosition_vals {st : List (String × List Nat)}
    (h : ∀ q ∈ st, q.2 ≠ []) (m : String) (p : Nat) :
    ∀ q ∈ addPosition st m p, q.2 ≠ [] := by
  induction st with
  | nil =>
    intro q hq
    rw [List.mem_singleton.mp hq]
    simp [addPosition]
  | cons e rest ih =>
    intro q hq
    obtain ⟨k, ps⟩ := e
    by_cases hkm : k = m
    · subst hkm
      simp only [addPosition, if_pos rfl] at hq
      rcases List.mem_cons.mp hq with h1 | h1
      · rw [h1]; simp
      · exact h q (List.mem_cons_of_mem _ h1)
    · simp only [addPosition, if_neg hkm] at hq
      rcases List.mem_cons.mp hq with h1 | h1
      · rw [h1]; exact h (k, ps) (List.mem_cons_self _ _)
      · exact ih (fun q hq => h q (List.mem_cons_of_mem _ hq)) q h1
/-- The per-ranking fold preserves duplicate-free keys. -/
theorem record_fold_keys_nodup (lm : List (String × String)) :
    ∀ (l : List (Nat × String)) (st : List (String × List Nat)),
    (st.map Prod.fst).Nodup →
    ((l.foldl (fun st p =>
      match lm.lookup p.2 with
      | some model_name => addPosition st model_name p.1
      | none => st) st).map Prod.fst).Nodup := by
  intro l
  induction l with
  | nil => intro st h; exact h
  | cons p rest ih =>
    intro st h
    rw [List.foldl_cons]
    cases hl : lm.lookup p.2 with
    | none => exact ih _ h
    | some mdl => exact ih _ (addPosition_keys_nodup h mdl p.1)
/-- The per-ranking fold preserves non-empty stored position lists. -/
theorem record_fold_vals (lm : List (String × String)) :
    ∀ (l : List (Nat × String)) (st : List (String × List Nat)),
    (∀ q ∈ st, q.2 ≠ []) →
    ∀ q ∈ l.foldl (fun st p =>
      match lm.lookup p.2 with
      | some model_name => addPosition st model_name p.1
      | none => st) st, q.2 ≠ [] := by
  intro l
  induction l with
  | nil => intro st h; exact h
  | cons p rest ih =>
    intro st h
    rw [List.foldl_cons]
    cases hl : lm.lookup p.2 with
    | none => exact ih _ h
    | some mdl => exact ih _ (addPosition_vals h mdl p.1)
/-- The per-ranking fold appends exactly the resolving positions of each
model, in order. -/
theorem record_fold_lookup (lm : List (String × String)) (m : String) :
    ∀ (l : List (Nat × String)) (st : List (String × List Nat)),
    (List.lookup m (l.foldl (fun st p =>
      match lm.lookup p.2 with
      | some model_name => addPosition st model_name p.1
      | none => st) st)).getD []
    = (List.lookup m st).getD [] ++
      (l.filterMap (fun p =>
        match lm.lookup p.2 with
        | some mdl => if mdl = m then some p.1 else none
        | none => none)) := by
  intro l
  induction l with
  | nil => intro st; simp
  | cons p rest ih =>
    intro st
    rw [List.foldl_cons, List.filterMap_cons]
    cases hl : lm.lookup p.2 with
    | none =>
      dsimp only
      exact ih _
    | some mdl =>
      dsimp only
      by_cases hm : mdl = m
      · subst hm
        rw [if_pos rfl, ih, lookup_addPosition, if_pos rfl]
        simp
      · rw [if_neg hm, ih, lookup_addPosition, if_neg (Ne.symm hm)]
/-- Lookup after accumulating all Stage 2 rankings gives the declarative
position list of each model. -/
theorem lookup_model_positions (lm : List (String × String)) (m : String) :
    ∀ (s2 : List Stage2Result) (st : List (String × List Nat)),
    (List.lookup m (s2.foldl (fun st r =>
      recordRanking lm st (parse_ranking_from_text r.ranking)) st)).getD []
    = (List.lookup m st).getD [] ++ positionsOfModel s2 lm m := by
  intro s2
  induction s2 with
  | nil => intro st; simp [positionsOfModel]
  | cons r rest ih =>
    intro st
    rw [List.foldl_cons]
    rw [ih]
    unfold recordRanking
    rw [record_fold_lookup]
    rw [List.append_assoc]
    simp [positionsOfModel]
/-- The accumulated `model_positions` dict has duplicate-free keys. -/
theorem model_positions_keys_nodup (lm : List (String × String))
    (s2 : List Stage2Result) :
    ((model_positions_of lm s2).map Prod.fst).Nodup := by
  unfold model_positions_of
  have h : ∀ (s2 : List Stage2Result) (st : List (String × List Nat)),
      (st.map Prod.fst).Nodup →
      ((s2.foldl (fun st r =>
        recordRanking lm st (parse_ranking_from_text r.ranking)) st).map
        Prod.fst).Nodup := by
    intro s2
    induction s2 with
    | nil => intro st h; exact h
    | cons r rest ih =>
      intro st h
      rw [List.foldl_cons]
      exact ih _ (record_fold_keys_nodup lm _ _ h)
  exact h s2 [] (by simp)
/-- Every stored position list in `model_positions` is non-empty. -/
theorem model_positions_vals (lm : List (String × String))
    (s2 : List Stage2Result) :
    ∀ q ∈ model_positions_of lm s2, q.2 ≠ [] := by
  unfold model_positions_of
  have h : ∀ (s2 : List Stage2Result) (st : List (String × List Nat)),
      (∀ q ∈ st, q.2 ≠ []) →
      ∀ q ∈ s2.foldl (fun st r =>
        recordRanking lm st (parse_ranking_from_text r.ranking)) st,
        q.2 ≠ [] := by
    intro s2
    induction s2 with
    | nil => intro st h; exact h
    | cons r rest ih =>
      intro st h
      rw [List.foldl_cons]
      exact ih _ (record_fold_vals lm _ _ h)
  exact h s2 [] (by intro q hq; cases hq)
/-- The stored positions of each model are the declarative ones. -/
theorem model_positions_lookup (lm : List (String × String)) (m : String)
    (s2 : List Stage2Result) :
    (List.lookup m (model_positions_of lm s2)).getD [] =
      positionsOfModel s2 lm m := by
  unfold model_positions_of
  rw [lookup_model_positions]
  simp [List.lookup]
/-- Every output entry of `calculate_aggregate_rankings` carries a non-empty
declarative position list, its rounded mean, and its count. -/
theorem aggregate_entry_fields (s2 : List Stage2Result)
    (lm : List (String × String)) :
    ∀ e ∈ calculate_aggregate_rankings s2 lm,
      positionsOfModel s2 lm e.model ≠ [] ∧
      e.average_rank = pyRound2 (meanQ (positionsOfModel s2 lm e.model)) ∧
      e.rankings_count = (positionsOfModel s2 lm e.model).length := by
  intro e he
  have he' : e ∈ (model_positions_of lm s2).filterMap
      (fun p => if p.2.isEmpty then none
        else some (⟨p.1, pyRound2 ((p.2.sum : ℚ) / (p.2.length : ℚ)),
          p.2.length⟩ : AggregateEntry)) :=
    (List.perm_insertionSort _ _).mem_iff.mp he
  obtain ⟨⟨k, ps⟩, hmem, heq⟩ := List.mem_filterMap.mp he'
  by_cases hemp : ps.isEmpty
  · rw [if_pos hemp] at heq
    cases heq
  · rw [if_neg hemp] at heq
    obtain rfl := Option.some.inj heq
    have hlook : List.lookup k (model_positions_of lm s2) = some ps :=
      mem_lookup (model_positions_keys_nodup lm s2) hmem
    have hps : ps = positionsOfModel s2 lm k := by
      have h := model_positions_lookup lm k s2
      rw [hlook] at h
      simpa using h
    refine ⟨?_, ?_, ?_⟩
    · show positionsOfModel s2 lm k ≠ []
      rw [← hps]
      simpa using hemp
    · show pyRound2 ((ps.sum : ℚ) / (ps.length : ℚ)) =
        pyRound2 (meanQ (positionsOfModel s2 lm k))
      rw [← hps, meanQ]
    · show ps.length = (positionsOfModel s2 lm k).length
      rw [← hps]
/-- Every model with at least one declarative position appears in the
aggregate output. -/
theorem aggregate_exists (s2 : List Stage2Result)
    (lm : List (String × String)) :
    ∀ m, positionsOfModel s2 lm m ≠ [] →
      ∃ e ∈ calculate_aggregate_rankings s2 lm, e.model = m := by
  intro m hm
  cases hl : List.lookup m (model_positions_of lm s2) with
  | none =>
    exfalso
    have h := model_positions_lookup lm m s2
    rw [hl] at h
    exact hm (by simpa using h.symm)
  | some ps =>
    have hps : ps = positionsOfModel s2 lm m := by
      have h := model_positions_lookup lm m s2
      rw [hl] at h
      simpa using h
    have hmem := lookup_mem hl
    have hemp : ps.isEmpty = false := by
      have hne : ps ≠ [] := by rw [hps]; exact hm
      simpa [List.isEmpty_iff] using hne
    refine ⟨⟨m, pyRound2 ((ps.sum : ℚ) / (ps.length : ℚ)), ps.length⟩,
      ?_, rfl⟩
    exact (List.perm_insertionSort _ _).mem_iff.mpr
      (List.mem_filterMap.mpr ⟨(m, ps), hmem, by rw [hemp]; rfl⟩)
/-- The aggregate output is sorted ascending by its stored (rounded)
`average_rank` field. -/
theorem aggregate_sorted (s2 : List Stage2Result)
    (lm : List (String × String)) :
    (calculate_aggregate_rankings s2 lm).Pairwise
      (fun a b => a.average_rank ≤ b.average_rank) := by
  haveI : IsTotal AggregateEntry
      (fun a b => a.average_rank ≤ b.average_rank) :=
    ⟨fun a b => le_total _ _⟩
  haveI : IsTrans AggregateEntry
      (fun a b => a.average_rank ≤ b.average_rank) :=
    ⟨fun a b c hab hbc => le_trans hab hbc⟩
  exact List.sorted_insertionSort _ _
/-- C4 (amended): `calculate_aggregate_rankings` assigns each model the
1-based positions of its labels across all parsed rankings, silently skipping
labels absent from the map; each model with at least one valid position
appears with `average_rank` equal to the mean of its positions *rounded to
two decimal places* and `rankings_count` equal to their number; models with
zero valid positions are absent; and the output is sorted ascending by the
stored (rounded) average rank. -/
theorem C4_aggregate_amended (s2 : List Stage2Result)
    (lm : List (String × String)) :
    (∀ e ∈ calculate_aggregate_rankings s2 lm,
      positionsOfModel s2 lm e.model ≠ [] ∧
      e.average_rank = pyRound2 (meanQ (positionsOfModel s2 lm e.model)) ∧
      e.rankings_count = (positionsOfModel s2 lm e.model).length) ∧
    (∀ m, positionsOfModel s2 lm m ≠ [] →
      ∃ e ∈ calculate_aggregate_rankings s2 lm, e.model = m) ∧
    (calculate_aggregate_rankings s2 lm).Pairwise
      (fun a b => a.average_rank ≤ b.average_rank) :=
  ⟨aggregate_entry_fields s2 lm, aggregate_exists s2 lm,
    aggregate_sorted s2 lm⟩
/-- Witness for C4 (amended) on the spec's worked example: A and C average
1.5, B averages 3.0, and A and C precede B. -/
theorem C4_aggregate_amended_witness :
    (calculate_aggregate_rankings s2Ex lmEx).map
      (fun e => (e.model, e.average_rank, e.rankings_count)) =
      [("mC", 3/2, 2), ("mA", 3/2, 2), ("mB", 3, 2)] ∧
    (∃ e ∈ calculate_aggregate_rankings s2Ex lmEx, e.model = "mA") := by
  constructor
  · have hmp : model_positions_of lmEx s2Ex =
        [("mC", [1, 2]), ("mA", [2, 1]), ("mB", [3, 3])] := by decide
    unfold calculate_aggregate_rankings
    rw [hmp]
    have hr1 : pyRound2 (((([1,2] : List Nat).sum : ℚ)) /
        ((([1,2] : List Nat).length : ℚ))) = 3/2 := by
      unfold pyRound2; norm_num
    have hr2 : pyRound2 (((([2,1] : List Nat).sum : ℚ)) /
        ((([2,1] : List Nat).length : ℚ))) = 3/2 := by
      unfold pyRound2; norm_num
    have hr3 : pyRound2 (((([3,3] : List Nat).sum : ℚ)) /
        ((([3,3] : List Nat).length : ℚ))) = 3 := by
      unfold pyRound2; norm_num
    simp only [List.filterMap_cons, List.filterMap_nil, List.isEmpty_cons,
      Bool.false_eq_true, if_false, hr1, hr2, hr3]
    have hle1 : (3/2 : ℚ) ≤ 3 := by norm_num
    have hle2 : (3/2 : ℚ) ≤ 3/2 := le_refl _
    simp [List.insertionSort, List.orderedInsert, hle1, hle2]
  · exact (C4_aggregate_amended s2Ex lmEx).2.1 "mA" (by decide)
/-- Counterexample to C4 as stated: the stored `average_rank` is the rounded
mean 1.33, not the exact mean 4/3 of the positions `[1, 1, 2]`. -/
theorem C4_aggregate_counterexample :
    calculate_aggregate_rankings s24 lm4 = [⟨"modelA", 133/100, 3⟩] ∧
    positionsOfModel s24 lm4 "modelA" = [1, 1, 2] ∧
    meanQ (positionsOfModel s24 lm4 "modelA") = 4/3 ∧
    (133/100 : ℚ) ≠ 4/3 := by
  have hpos : positionsOfModel s24 lm4 "modelA" = [1, 1, 2] := by decide
  refine ⟨?_, hpos, ?_, by norm_num⟩
  · have hmp : model_positions_of lm4 s24 = [("modelA", [1, 1, 2])] := by
      decide
    unfold calculate_aggregate_rankings
    rw [hmp]
    have hround : pyRound2 (((([1,1,2] : List Nat).sum : ℚ)) /
        ((([1,1,2] : List Nat).length : ℚ))) = 133/100 := by
      unfold pyRound2; norm_num
    simp only [List.filterMap_cons, List.filterMap_nil, List.isEmpty_cons,
      Bool.false_eq_true, if_false, hround, List.insertionSort]
    simp [List.orderedInsert]
  · rw [hpos]
    unfold meanQ
    norm_num
/-- C5 (amended): rounding the average to two decimal places is *not*
display-only: the stored `average_rank` is the rounded mean and the ascending
sort operates on these rounded values, so entries appear in non-decreasing
order of their rounded (not unrounded) means. -/
theorem C5_sort_amended (s2 : List Stage2Result)
    (lm : List (String × String)) :
    (calculate_aggregate_rankings s2 lm).Pairwise
      (fun a b => a.average_rank ≤ b.average_rank) ∧
    (calculate_aggregate_rankings s2 lm).Pairwise
      (fun a b => pyRound2 (meanQ (positionsOfModel s2 lm a.model)) ≤
        pyRound2 (meanQ (positionsOfModel s2 lm b.model))) := by
  refine ⟨aggregate_sorted s2 lm, ?_⟩
  refine List.Pairwise.imp_of_mem ?_ (aggregate_sorted s2 lm)
  intro a b ha hb hab
  rw [← ((aggregate_entry_fields s2 lm) a ha).2.1,
      ← ((aggregate_entry_fields s2 lm) b hb).2.1]
  exact hab
/-- Counterexample to C5 as stated: modelB's unrounded average 57/43 is
strictly smaller than modelA's 4/3, yet both round to 1.33 and the stable
sort leaves modelA (inserted first) ahead of modelB — so the sort does not
operate on the unrounded values. -/
theorem C5_sort_counterexample :
    ((calculate_aggregate_rankings s25 lm5).map (fun e => e.model) =
      ["modelA", "modelB"]) ∧
    meanQ (positionsOfModel s25 lm5 "modelB") <
      meanQ (positionsOfModel s25 lm5 "modelA") := by
  constructor
  · have hmp : model_positions_of lm5 s25 =
        [("modelA", [1, 1, 2]), ("modelB", posB)] := by decide
    unfold calculate_aggregate_rankings
    rw [hmp]
    have hrA : pyRound2 (((([1,1,2] : List Nat).sum : ℚ)) /
        ((([1,1,2] : List Nat).length : ℚ))) = 133/100 := by
      unfold pyRound2; norm_num
    have hsB : posB.sum = 57 := by decide
    have hlB : posB.length = 43 := by decide
    have hrB : pyRound2 (((posB.sum : ℚ)) / ((posB.length : ℚ))) =
        133/100 := by
      rw [hsB, hlB]
      unfold pyRound2
      norm_num
    have hBne : posB.isEmpty = false := by decide
    simp only [List.filterMap_cons, List.filterMap_nil, List.isEmpty_cons,
      Bool.false_eq_true, if_false, hrA, hrB, hBne]
    have hle : (133/100 : ℚ) ≤ 133/100 := le_refl _
    simp [List.insertionSort, List.orderedInsert, hle]
  · have hA : positionsOfModel s25 lm5 "modelA" = [1, 1, 2] := by decide
    have hB : positionsOfModel s25 lm5 "modelB" = posB := by decide
    rw [hA, hB]
    unfold meanQ
    rw [show posB.sum = 57 from by decide, show posB.length = 43 from by decide]
    norm_num
theorem pySplitOnF_ne_nil (sep : List Char) :
    ∀ (fuel : Nat) (s : List Char), pySplitOnF sep fuel s ≠ [] := by
  intro fuel
  induction fuel with
  | zero => intro s; cases s <;> simp [pySplitOnF]
  | succ n ih =>
    intro s
    cases s with
    | nil => simp [pySplitOnF]
    | cons c cs =>
      unfold pySplitOnF
      split
      · simp
      · cases h : pySplitOnF sep n cs with
        | nil => simp
        | cons p ps => simp
theorem pySplitOnF_length (sep : List Char) (hsep : sep ≠ []) :
    ∀ (fuel : Nat) (s : List Char), s.length ≤ fuel →
    occursIn sep s = true → 2 ≤ (pySplitOnF sep fuel s).length := by
  intro fuel
  induction fuel with
  | zero =>
    intro s hle hocc
    cases s with
    | nil =>
      unfold occursIn at hocc
      rw [List.isPrefixOf_iff_prefix] at hocc
      exact absurd (List.prefix_nil.mp hocc) hsep
    | cons c cs => simp at hle
  | succ n ih =>
    intro s hle hocc
    cases s with
    | nil =>
      unfold occursIn at hocc
      rw [List.isPrefixOf_iff_prefix] at hocc
      exact absurd (List.prefix_nil.mp hocc) hsep
    | cons c cs =>
      unfold pySplitOnF
      have hsep1 : 1 ≤ sep.length := by
        cases sep with
        | nil => exact absurd rfl hsep
        | cons a as => simp
      split
      · next hpre =>
        have := pySplitOnF_ne_nil sep n ((c :: cs).drop sep.length)
        simp only [List.length_cons]
        have hnn : 1 ≤ (pySplitOnF sep n ((c :: cs).drop sep.length)).length := by
          cases h : pySplitOnF sep n ((c :: cs).drop sep.length) with
          | nil => exact absurd h this
          | cons p ps => simp
        omega
      · next hpre =>
        have hocc' : occursIn sep cs = true := by
          unfold occursIn at hocc
          rcases Bool.or_eq_true_iff.mp hocc with h | h
          · exfalso
            apply hpre
            simp only [Bool.and_eq_true, Bool.not_eq_true']
            constructor
            · simpa using hsep
            · exact h
          · exact h
        have hle' : cs.length ≤ n := by
          simp only [List.length_cons] at hle
          omega
        have h2 := ih cs hle' hocc'
        cases h : pySplitOnF sep n cs with
        | nil => exact absurd h (pySplitOnF_ne_nil sep n cs)
        | cons p ps =>
          rw [h] at h2
          simp only [List.length_cons] at h2 ⊢
          omega
theorem pySplitOnF_head (sep : List Char) (hsep : sep ≠ []) :
    ∀ (fuel : Nat) (s : List Char), s.length ≤ fuel →
    (pySplitOnF sep fuel s).head? = some (upToFirst sep s) := by
  intro fuel
  induction fuel with
  | zero =>
    intro s hle
    cases s with
    | nil => simp [pySplitOnF, upToFirst]
    | cons c cs => simp at hle
  | succ n ih =>
    intro s hle
    cases s with
    | nil => simp [pySplitOnF, upToFirst]
    | cons c cs =>
      have hsep1 : 1 ≤ sep.length := by
        cases sep with
        | nil => exact absurd rfl hsep
        | cons a as => simp
      unfold pySplitOnF upToFirst
      split
      · next hpre =>
        rw [if_pos (Bool.and_eq_true_iff.mp hpre).2]
        simp
      · next hpre =>
        have hnp : sep.isPrefixOf (c :: cs) = false := by
          by_cases h : sep.isPrefixOf (c :: cs)
          · exfalso
            apply hpre
            simp only [Bool.and_eq_true, Bool.not_eq_true']
            exact ⟨by simpa using hsep, h⟩
          · rw [Bool.eq_false_iff]
            simpa using h
        rw [if_neg (by simp [hnp])]
        have hle' : cs.length ≤ n := by
          simp only [List.length_cons] at hle
          omega
        have hh := ih cs hle'
        cases h : pySplitOnF sep n cs with
        | nil => exact absurd h (pySplitOnF_ne_nil sep n cs)
        | cons p ps =>
          rw [h] at hh
          simp only [List.head?_cons, Option.some.injEq] at hh
          simp [hh]
theorem pySplitOnF_get1 (sep : List Char) (hsep : sep ≠ []) :
    ∀ (fuel : Nat) (s : List Char), s.length ≤ fuel →
    occursIn sep s = true →
    (pySplitOnF sep fuel s).get? 1 =
      some (upToFirst sep (afterFirst sep s)) := by
  intro fuel
  induction fuel with
  | zero =>
    intro s hle hocc
    cases s with
    | nil =>
      unfold occursIn at hocc
      rw [List.isPrefixOf_iff_prefix] at hocc
      exact absurd (List.prefix_nil.mp hocc) hsep
    | cons c cs => simp at hle
  | succ n ih =>
    intro s hle hocc
    cases s with
    | nil =>
      unfold occursIn at hocc
      rw [List.isPrefixOf_iff_prefix] at hocc
      exact absurd (List.prefix_nil.mp hocc) hsep
    | cons c cs =>
      have hsep1 : 1 ≤ sep.length := by
        cases sep with
        | nil => exact absurd rfl hsep
        | cons a as => simp
      unfold pySplitOnF afterFirst
      split
      · next hpre =>
        rw [if_pos (Bool.and_eq_true_iff.mp hpre).2]
        have hdle : ((c :: cs).drop sep.length).length ≤ n := by
          simp only [List.length_drop, List.length_cons] at *
          omega
        have hh := pySplitOnF_head sep hsep n ((c :: cs).drop sep.length) hdle
        cases h : pySplitOnF sep n ((c :: cs).drop sep.length) with
        | nil => exact absurd h (pySplitOnF_ne_nil sep n _)
        | cons p ps =>
          rw [h] at hh
          simp only [List.head?_cons, Option.some.injEq] at hh
          simp [hh]
      · next hpre =>
        have hnp : sep.isPrefixOf (c :: cs) = false := by
          by_cases h : sep.isPrefixOf (c :: cs)
          · exfalso
            apply hpre
            simp only [Bool.and_eq_true, Bool.not_eq_true']
            exact ⟨by simpa using hsep, h⟩
          · rw [Bool.eq_false_iff]
            simpa using h
        rw [if_neg (by simp [hnp])]
        have hocc' : occursIn sep cs = true := by
          unfold occursIn at hocc
          rcases Bool.or_eq_true_iff.mp hocc with h | h
          · rw [h] at hnp; cases hnp
          · exact h
        have hle' : cs.length ≤ n := by
          simp only [List.length_cons] at hle
          omega
        have hh := ih cs hle' hocc'
        cases h : pySplitOnF sep n cs with
        | nil => exact absurd h (pySplitOnF_ne_nil sep n cs)
        | cons p ps =>
          rw [h] at hh
          simpa using hh
theorem matchLooseAt_shape {s r t : List Char}
    (h : matchLooseAt s = some (r, t)) :
    ∃ c, isUpperAZ c = true ∧ r = respLit ++ [c] := by
  unfold matchLooseAt at h
  split at h
  · next c rest heq =>
    split at h
    · next hupper =>
      simp only [Option.some.injEq, Prod.mk.injEq] at h
      exact ⟨c, hupper, h.1.symm⟩
    · cases h
  · cases h
theorem matchStrictAt_shape {s r t : List Char}
    (h : matchStrictAt s = some (r, t)) :
    ∃ ds ws c, ds ≠ [] ∧ (∀ d ∈ ds, isAsciiDigit d = true) ∧
      (∀ w ∈ ws, isPyWs w = true) ∧ isUpperAZ c = true ∧
      r = ds ++ '.' :: (ws ++ (respLit ++ [c])) := by
  unfold matchStrictAt at h
  dsimp only at h
  split at h
  · cases h
  · next hne =>
    split at h
    · next r2 heq =>
      cases hm : matchLooseAt (r2.dropWhile isPyWs) with
      | none =>
        rw [hm] at h
        cases h
      | some p =>
        obtain ⟨m0, rest⟩ := p
        rw [hm] at h
        simp only [Option.map_some, Option.map_some', Option.some.injEq,
          Prod.mk.injEq] at h
        obtain ⟨c, hupper, hm0⟩ := matchLooseAt_shape hm
        refine ⟨s.takeWhile isAsciiDigit, r2.takeWhile isPyWs, c, ?_, ?_, ?_,
          hupper, ?_⟩
        · intro hnil
          rw [hnil] at hne
          simp at hne
        · exact fun d hd => List.mem_takeWhile_imp hd
        · exact fun w hw => List.mem_takeWhile_imp hw
        · rw [← h.1, hm0]
    · cases h
theorem stripLit_self_append (rest : List Char) :
    ∀ p : List Char, stripLit p (p ++ rest) = some rest := by
  intro p
  induction p with
  | nil => rfl
  | cons a as ih => simp [stripLit, ih]
theorem matchLooseAt_resp {c : Char} (h : isUpperAZ c = true) :
    matchLooseAt (respLit ++ [c]) = some (respLit ++ [c], []) := by
  unfold matchLooseAt
  rw [show respLit ++ [c] = respLit ++ (c :: []) from rfl]
  rw [stripLit_self_append]
  simp [h]
theorem matchLooseAt_none_of_ne_R {x : Char} (hx : x ≠ 'R')
    (l : List Char) : matchLooseAt (x :: l) = none := by
  unfold matchLooseAt
  have : stripLit respLit (x :: l) = none := by
    simp [respLit, stripLit, hx]
  rw [this]
theorem searchFirst_append_of_ne_R :
    ∀ (pre : List Char), (∀ x ∈ pre, x ≠ 'R') → ∀ l,
    searchFirst matchLooseAt (pre ++ l) = searchFirst matchLooseAt l := by
  intro pre
  induction pre with
  | nil => intro _ l; rfl
  | cons x rest ih =>
    intro hx l
    rw [List.cons_append]
    show (match matchLooseAt (x :: (rest ++ l)) with
      | some (r, _) => some r
      | none => searchFirst matchLooseAt (rest ++ l)) = _
    rw [matchLooseAt_none_of_ne_R (hx x (List.mem_cons_self _ _)) _]
    exact ih (fun y hy => hx y (List.mem_cons_of_mem _ hy)) l
theorem searchFirst_resp {c : Char} (h : isUpperAZ c = true) :
    searchFirst matchLooseAt (respLit ++ [c]) = some (respLit ++ [c]) := by
  show (match matchLooseAt ('R' :: (['e','s','p','o','n','s','e',' '] ++ [c])) with
    | some (r, _) => some r
    | none => searchFirst matchLooseAt (['e','s','p','o','n','s','e',' '] ++ [c]))
    = some (respLit ++ [c])
  rw [show ('R' :: (['e','s','p','o','n','s','e',' '] ++ [c])) =
    respLit ++ [c] from rfl]
  rw [matchLooseAt_resp h]
theorem isAsciiDigit_ne_R {d : Char} (h : isAsciiDigit d = true) : d ≠ 'R' := by
  intro he
  rw [he] at h
  exact absurd h (by decide)
theorem isPyWs_ne_R {w : Char} (h : isPyWs w = true) : w ≠ 'R' := by
  intro he
  rw [he] at h
  exact absurd h (by decide)
theorem findAllF_mem_shape (m : List Char → Option (List Char × List Char)) :
    ∀ (fuel : Nat) (s : List Char) (x : List Char),
    x ∈ findAllF m fuel s → ∃ s' t', m s' = some (x, t') := by
  intro fuel
  induction fuel with
  | zero =>
    intro s x hx
    cases s with
    | nil => cases hx
    | cons c cs => cases hx
  | succ n ih =>
    intro s x hx
    cases s with
    | nil => cases hx
    | cons c cs =>
      unfold findAllF at hx
      split at hx
      · next r t heq =>
        rcases List.mem_cons.mp hx with h1 | h1
        · exact ⟨c :: cs, t, by rw [heq, h1]⟩
        · split at h1
          · exact ih _ _ h1
          · exact ih _ _ h1
      · exact ih _ _ hx
theorem strict_match_extract {s r t : List Char}
    (h : matchStrictAt s = some (r, t)) :
    (searchFirst matchLooseAt r).getD [] = respPartOf r := by
  obtain ⟨ds, ws, c, hds, hdig, hws, hupper, hr⟩ := matchStrictAt_shape h
  subst hr
  have hpre : ∀ x ∈ ds ++ '.' :: ws, x ≠ 'R' := by
    intro x hx
    rcases List.mem_append.mp hx with h1 | h1
    · exact isAsciiDigit_ne_R (hdig x h1)
    · rcases List.mem_cons.mp h1 with h2 | h2
      · rw [h2]; decide
      · exact isPyWs_ne_R (hws x h2)
  have hassoc : ds ++ '.' :: (ws ++ (respLit ++ [c])) =
      (ds ++ '.' :: ws) ++ (respLit ++ [c]) := by simp
  rw [hassoc, searchFirst_append_of_ne_R _ hpre, searchFirst_resp hupper]
  unfold respPartOf
  rw [List.length_append]
  rw [show (respLit ++ [c]).length = 10 from by simp [respLit]]
  rw [Nat.add_sub_cancel, List.drop_left]
  rfl
theorem parse_ranking_eq_amended (t : List Char) :
    parse_ranking_from_textL t = parse_ranking_amendedL t := by
  unfold parse_ranking_from_textL parse_ranking_amendedL
  by_cases hocc : occursIn markerL t
  · have hsep : markerL ≠ [] := by decide
    have h2 : 2 ≤ (pySplitOn markerL t).length :=
      pySplitOnF_length markerL hsep t.length t (le_refl _) hocc
    have hsec : (pySplitOn markerL t).get? 1 = some (markerSegment t) :=
      pySplitOnF_get1 markerL hsep t.length t (le_refl _) hocc
    rw [hocc]
    simp only [if_true, if_pos h2, hsec, Option.getD_some]
    by_cases hne : (findAll matchStrictAt (markerSegment t)).isEmpty
    · simp [hne]
    · simp only [hne, Bool.false_eq_true, if_false]
      have hmap : (findAll matchStrictAt (markerSegment t)).map
          (fun m => (searchFirst matchLooseAt m).getD []) =
          (findAll matchStrictAt (markerSegment t)).map respPartOf := by
        apply List.map_congr_left
        intro x hx
        obtain ⟨s', t', hm⟩ := findAllF_mem_shape matchStrictAt
          (markerSegment t).length (markerSegment t) x hx
        exact strict_match_extract hm
      rw [hmap]
  · rw [Bool.eq_false_iff.mpr hocc]
    simp
/-- C3 (amended): for every input text, `parse_ranking_from_text` implements
the two-tier algorithm with these region/whitespace rules: if
`"FINAL RANKING:"` occurs, only the text strictly between its first
occurrence and the next occurrence (to the end when it occurs once) is
considered — strict matches of digit(s), period, any possibly-empty run of
whitespace, `"Response"`, space, uppercase letter are returned as their
`"Response <Letter>"` parts in order; with no strict match, all
`"Response <Letter>"` occurrences of that region in order; with the marker
present and neither form matching, the empty list (no whole-text fallback);
with no marker, all occurrences in the entire text in order. -/
theorem C3_parse_ranking_amended (s : String) :
    parse_ranking_from_text s =
      (parse_ranking_amendedL s.toList).map String.mk := by
  unfold parse_ranking_from_text
  rw [parse_ranking_eq_amended]
/-- Counterexample to C3 as stated: the code returns `["Response A"]` while
the claim's algorithm (everything after the first marker, optional single
space in the strict tier) returns `["Response C"]`. -/
theorem C3_parse_ranking_counterexample :
    parse_ranking_from_textL c3input.toList = ["Response A".toList] ∧
    parse_ranking_claimL c3input.toList = ["Response C".toList] ∧
    parse_ranking_from_textL c3input.toList ≠
      parse_ranking_claimL c3input.toList := by
  refine ⟨by decide, by decide, by decide⟩
